import Mathlib

/-!
# Verification of the fmu_tools (fmu-forge) FMI 2.0 export core

Shallow embedding of `src/fmi2/FmuToolsExport.cpp` and
`src/FmuToolsModelDescription.cpp`.  C++ maps become association lists,
`std::set<FmuVariableExport>` (ordered by variable name) becomes a
name-sorted list, exceptions become `Except` results that carry the
component state at the throw point (the C++ object persists after a
throw from a member function), and the host logging callback becomes a
recorded list of invocations.

Floating-point values (`fmi2Real`) are represented by `Int`: no verified
property inspects real arithmetic, only the plumbing of values.
-/

namespace FmuForge

/-! ## Scalar types, causality, variability and initial annotations
(enumerations from the `FmuVariable` declaration; the header is not under
`src/`, the enumerator lists are modelled from the spec §3 data model). -/

inductive FmuType where
  | Real
  | Integer
  | Boolean
  | String
  | Unknown
  deriving DecidableEq, Repr

inductive CausalityType where
  | parameter
  | calculatedParameter
  | input
  | output
  | «local»
  | independent
  deriving DecidableEq, Repr

inductive VariabilityType where
  | constant
  | fixed
  | tunable
  | discrete
  | continuous
  deriving DecidableEq, Repr

inductive InitialType where
  | none
  | exact
  | approx
  | calculated
  deriving DecidableEq, Repr

/-- Component lifecycle states (spec §4.4 state machine). -/
inductive FmuMachineState where
  | instantiated
  | initializationMode
  | stepCompleted
  | stepFailed
  | stepInProgress
  | error
  | fatal
  deriving DecidableEq, Repr

/-! ## fmi2Status

In C++ `fmi2Status` is an enum over an integer underlying type; a value
outside the named enumerators can be produced by a cast, and
`FmuComponentBase::DoStep` has a `default:` branch for exactly that
case.  We therefore model status values as `Int` with the named
constants of `fmi2FunctionTypes.h`. -/

def fmi2OK : Int := 0
def fmi2Warning : Int := 1
def fmi2Discard : Int := 2
def fmi2Error : Int := 3
def fmi2Fatal : Int := 4
def fmi2Pending : Int := 5

/-! ## Values and bindings -/

/-- A typed scalar value (`fmi2Real` stands in as `Int`, see module header). -/
inductive FmuVarValue where
  | realVal (v : Int)
  | intVal (v : Int)
  | boolVal (v : Bool)
  | stringVal (v : String)
  deriving DecidableEq, Repr

/-- `FmuVariableBindType`: tagged union over a pointer to a live memory
cell or a getter/setter accessor pair.  Each variant is modelled by the
value currently readable through it (claims never write through
bindings, they only snapshot the current value at registration time). -/
inductive VarBind where
  | ptr (current : FmuVarValue)
  | getset (current : FmuVarValue)
  deriving DecidableEq, Repr

/-- Read the current value behind a binding (dereference the pointer or
invoke the getter). -/
def VarBind.read : VarBind → FmuVarValue
  | .ptr v => v
  | .getset v => v

/-! ## Errors

The C++ code signals setup-time failures with `throw std::runtime_error(msg)`.
We classify the throw sites by the failure kinds named in the spec §7. -/

inductive FmuError where
  | UnknownUnit
  | DuplicateName
  | UnknownVariable (which : String)
  | MissingDependencyDeclaration (variableName : String)
  | DeveloperError (msg : String)
  deriving DecidableEq, Repr

/-- A recorded invocation of the host-supplied logging callback
(`m_callbackFunctions.logger(env, instanceName, status, category, message)`). -/
structure LogRecord where
  instanceName : String
  status : Int
  category : String
  message : String
  deriving DecidableEq, Repr

/-! ## Units -/

/-- `UnitDefinition`: identity is the name; the seven SI base exponents
plus the radian exponent (ints; only the name is consulted by any
verified property). -/
structure UnitDefinition where
  name : String
  kg : Int := 0
  m : Int := 0
  s : Int := 0
  A : Int := 0
  K : Int := 0
  mol : Int := 0
  cd : Int := 0
  rad : Int := 0
  deriving DecidableEq, Repr

/-- The fixed common-unit library `common_unitdefinitions`
(`FmuToolsExport.cpp` lines 27-31).  The `UD_*` constants live in the
header, which is not under `src/`; their names and exponents are
modelled from the spec §4.1 list (mass, length, time, current,
temperature, molar amount, luminous intensity, radian, linear/angular
velocity and acceleration, force, torque, pressure) and the unit names
used by the demo model ("kg", "m", "s", "m/s", "m/s2", "rad", "rad/s",
"rad/s2").  The C++ container is an `unordered_set` hashed by name;
search is by name, so a list searched by name is faithful. -/
def common_unitdefinitions : List UnitDefinition :=
  [ { name := "kg", kg := 1 },
    { name := "m", m := 1 },
    { name := "s", s := 1 },
    { name := "A", A := 1 },
    { name := "K", K := 1 },
    { name := "mol", mol := 1 },
    { name := "cd", cd := 1 },
    { name := "rad", rad := 1 },
    { name := "m/s", m := 1, s := -1 },
    { name := "m/s2", m := 1, s := -2 },
    { name := "rad/s", s := -1, rad := 1 },
    { name := "rad/s2", s := -2, rad := 1 },
    { name := "N", kg := 1, m := 1, s := -2 },
    { name := "Nm", kg := 1, m := 2, s := -2 },
    { name := "N/m2", kg := -1, s := -2 } ]

/-! ## Association-list maps

The C++ code stores units, counters, log categories, derivatives and
dependency lists in `std::map`/`std::unordered_map`.  We model them as
association lists; `assocFind` is `find`, `assocSet` is
`operator[] = v` (overwrite the existing key or insert a fresh one). -/

def assocFind {α β : Type} [DecidableEq α] (l : List (α × β)) (k : α) : Option β :=
  (l.find? (fun p => p.1 = k)).map (·.2)

def assocSet {α β : Type} [DecidableEq α] : List (α × β) → α → β → List (α × β)
  | [], k, v => [(k, v)]
  | p :: ps, k, v => if p.1 = k then (k, v) :: ps else p :: assocSet ps k v

theorem assocFind_assocSet_self {α β : Type} [DecidableEq α]
    (l : List (α × β)) (k : α) (v : β) : assocFind (assocSet l k v) k = some v := by
  induction l with
  | nil => simp [assocSet, assocFind, List.find?]
  | cons p ps ih =>
    by_cases h : p.1 = k
    · simp [assocSet, h, assocFind, List.find?]
    · simp only [assocSet, if_neg h]
      simpa [assocFind, List.find?, h] using ih

theorem assocFind_assocSet_ne {α β : Type} [DecidableEq α]
    (l : List (α × β)) (k k' : α) (v : β) (hne : k' ≠ k) :
    assocFind (assocSet l k v) k' = assocFind l k' := by
  induction l with
  | nil => simp [assocSet, assocFind, List.find?, Ne.symm hne]
  | cons p ps ih =>
    by_cases h : p.1 = k
    · subst h
      simp [assocSet, assocFind, List.find?, Ne.symm hne]
    · simp only [assocSet, if_neg h]
      by_cases h' : p.1 = k'
      · simp [assocFind, List.find?, h']
      · simpa [assocFind, List.find?, h'] using ih

end FmuForge

namespace FmuForge

/-! ## The exported variable (`FmuVariableExport`)

Fields are the data members of `FmuVariable` (base) and
`FmuVariableExport` (derived); the field declarations and their
initializers live in headers not under `src/`, so the defaults of the
two derived flags (`m_allowed_start = true`, `m_required_start = false`,
the "optional" row of the spec §3 table) and the remaining defaults are
modelled from the spec §3 data model. -/

structure FmuVariableExport where
  m_name : String
  m_type : FmuType
  m_causality : CausalityType
  m_variability : VariabilityType
  m_initial : InitialType
  m_unitname : String := ""
  m_description : String := ""
  m_valueReference : Nat := 0
  m_allowed_start : Bool := true
  m_required_start : Bool := false
  m_has_start : Bool := false
  m_start : Option FmuVarValue := Option.none
  m_varbind : VarBind
  deriving DecidableEq, Repr

/-- The `FmuVariableExport` constructor (`FmuToolsExport.cpp` lines
88-109).  Starting from the field defaults it applies, in this order:

* if `initial = calculated` or `causality = independent`, start is
  forbidden (`allowed := false`, `required := false`);
* if `initial = exact` or `approx`, or `causality = input`, start is
  required (`allowed := true`, `required := true`) — note that this
  second `if` is not an `else if` and overrides the first. -/
def mkFmuVariableExport (varbind : VarBind) (name : String) (type : FmuType)
    (causality : CausalityType) (variability : VariabilityType)
    (initial : InitialType) : FmuVariableExport :=
  let v0 : FmuVariableExport :=
    { m_name := name, m_type := type, m_causality := causality,
      m_variability := variability, m_initial := initial, m_varbind := varbind }
  let v1 :=
    if initial = InitialType.calculated ∨ causality = CausalityType.independent then
      { v0 with m_allowed_start := false, m_required_start := false }
    else v0
  if initial = InitialType.exact ∨ initial = InitialType.approx ∨
      causality = CausalityType.input then
    { v1 with m_allowed_start := true, m_required_start := true }
  else v1

namespace FmuVariableExport

/-- `FmuVariableExport::SetStartVal` (lines 145-150): a no-op when a
start value is not allowed, otherwise records the value and sets
`m_has_start`. -/
def SetStartVal (v : FmuVariableExport) (start : FmuVarValue) : FmuVariableExport :=
  if !v.m_allowed_start then v
  else { v with m_has_start := true, m_start := some start }

/-- `FmuVariableExport::ExposeCurrentValueAsStart` (lines 152-170): when
a start value is required, capture the current value behind the binding
as the start value. -/
def ExposeCurrentValueAsStart (v : FmuVariableExport) : FmuVariableExport :=
  if v.m_required_start then
    { v with m_has_start := true, m_start := some v.m_varbind.read }
  else v

/-- `FmuVariableExport::GetStartValAsString` (lines 172-186); numeric
formatting stands in for `std::to_string`. -/
def GetStartValAsString (v : FmuVariableExport) : String :=
  match v.m_start with
  | some (.realVal r) => toString r
  | some (.intVal i) => toString i
  | some (.boolVal b) => if b then "1" else "0"
  | some (.stringVal s) => s
  | Option.none => ""

/-- Setters used by `AddFmuVariable` (defined in the header as plain
field assignments). -/
def SetUnitName (v : FmuVariableExport) (unitname : String) : FmuVariableExport :=
  { v with m_unitname := unitname }

def SetValueReference (v : FmuVariableExport) (vr : Nat) : FmuVariableExport :=
  { v with m_valueReference := vr }

def SetDescription (v : FmuVariableExport) (description : String) : FmuVariableExport :=
  { v with m_description := description }

/-- `FmuVariableExport::Bind`: replace the binding, keep everything else. -/
def Bind (v : FmuVariableExport) (varbind : VarBind) : FmuVariableExport :=
  { v with m_varbind := varbind }

end FmuVariableExport

/-! ## The name-ordered variable collection

`m_variables` is a `std::set<FmuVariableExport>` whose `operator<`
compares variable names (spec §3: the collection is "uniquely-named …
ordered deterministically (by name)").  We model it as a name-sorted
list: `insertByName` is `std::set::insert` (returns the flag
`ret.second`: false and no change when an equivalent — same-name —
element is present), `eraseByName` is `erase(*it)`.

`strLt` is lexicographic string comparison (the `std::string`
`operator<` used by the set's comparator), written over character codes
so that it evaluates by kernel reduction. -/

def charListLtB : List Char → List Char → Bool
  | _, [] => false
  | [], _ :: _ => true
  | a :: as, b :: bs =>
    if Nat.blt a.toNat b.toNat then true
    else if Nat.blt b.toNat a.toNat then false
    else charListLtB as bs

def strLt (a b : String) : Bool := charListLtB a.data b.data

theorem charListLtB_antisymm_eq : ∀ (as bs : List Char),
    charListLtB as bs = false → charListLtB bs as = false → as = bs
  | [], [], _, _ => rfl
  | [], _ :: _, h1, _ => by simp [charListLtB] at h1
  | _ :: _, [], _, h2 => by simp [charListLtB] at h2
  | a :: as, b :: bs, h1, h2 => by
    by_cases hab : Nat.blt a.toNat b.toNat = true
    · rw [charListLtB, if_pos hab] at h1
      cases h1
    · by_cases hba : Nat.blt b.toNat a.toNat = true
      · rw [charListLtB, if_pos hba] at h2
        cases h2
      · have haeq : a = b := by
          have h1' : a.toNat = b.toNat := by
            have := Nat.not_lt.mp (fun hl => hab (Nat.blt_eq.mpr hl))
            have := Nat.not_lt.mp (fun hl => hba (Nat.blt_eq.mpr hl))
            omega
          exact Char.eq_of_val_eq (UInt32.ext h1')
        subst haeq
        rw [charListLtB, if_neg hab, if_neg hab] at h1 h2
        have := charListLtB_antisymm_eq as bs h1 h2
        rw [this]

/-- Two strings neither of which precedes the other are equal (the
`std::set` equivalence relation induced by the comparator). -/
theorem strLt_antisymm_eq (a b : String) (h1 : strLt a b = false)
    (h2 : strLt b a = false) : a = b :=
  String.ext (charListLtB_antisymm_eq a.data b.data h1 h2)

def insertByName (v : FmuVariableExport) :
    List FmuVariableExport → List FmuVariableExport × Bool
  | [] => ([v], true)
  | x :: xs =>
    if strLt v.m_name x.m_name then (v :: x :: xs, true)
    else if strLt x.m_name v.m_name then
      let r := insertByName v xs
      (x :: r.1, r.2)
    else (x :: xs, false)

def eraseByName (name : String) : List FmuVariableExport → List FmuVariableExport
  | [] => []
  | x :: xs => if x.m_name = name then xs else x :: eraseByName name xs

/-! ## The component (`FmuComponentBase`) -/

/-- The state of one FMU component instance.  Pre/post-step callbacks
(`m_preStepCallbacks`/`m_postStepCallbacks`) are not stored: they are
opaque `std::function` values, passed explicitly to the operations that
run them.  `loggerCalls` records every invocation of the host-supplied
logging callback in order. -/
structure FmuComponentBase where
  m_instanceName : String
  m_debug_logging_enabled : Bool
  m_fmuMachineState : FmuMachineState
  m_unitDefinitions : List (String × UnitDefinition) := []
  m_variables : List FmuVariableExport := []
  m_valueReferenceCounter : List (FmuType × Nat) := []
  m_derivatives : List (String × (String × List String)) := []
  m_variableDependencies : List (String × List String) := []
  m_logCategories_enabled : List (String × Bool) := []
  m_logCategories_debug : List String := []
  loggerCalls : List LogRecord := []
  deriving DecidableEq, Repr

namespace FmuComponentBase

/-- `FmuComponentBase::findByName` (lines 764-767): linear search for a
variable with the given name. -/
def findByName (c : FmuComponentBase) (name : String) : Option FmuVariableExport :=
  c.m_variables.find? (fun v => v.m_name = name)

/-- `FmuComponentBase::findByValrefType` (lines 756-762): linear search
matching both the value reference and the scalar type. -/
def findByValrefType (c : FmuComponentBase) (vr : Nat) (vartype : FmuType) :
    Option FmuVariableExport :=
  c.m_variables.find? (fun v => v.m_valueReference = vr ∧ v.m_type = vartype)

/-- `FmuComponentBase::addUnitDefinition` (lines 883-885):
`m_unitDefinitions[unit_definition.name] = unit_definition`. -/
def addUnitDefinition (c : FmuComponentBase) (unit_definition : UnitDefinition) :
    FmuComponentBase :=
  { c with m_unitDefinitions :=
      assocSet c.m_unitDefinitions unit_definition.name unit_definition }

/-- `FmuComponentBase::sendToLog` (lines 887-896).  The leading
debug-build `assert` is elided (release semantics).  The callback is
invoked when the category is not a known log category, or its enabled
flag is set, or debug logging is globally enabled and the category is in
the debug set. -/
def sendToLog (c : FmuComponentBase) (msg : String) (status : Int) (msg_cat : String) :
    FmuComponentBase :=
  if (assocFind c.m_logCategories_enabled msg_cat).isNone ||
      ((assocFind c.m_logCategories_enabled msg_cat).getD false) ||
      (c.m_debug_logging_enabled && c.m_logCategories_debug.contains msg_cat) then
    { c with loggerCalls :=
        c.loggerCalls ++ [⟨c.m_instanceName, status, msg_cat, msg⟩] }
  else c

/-- `FmuComponentBase::SetDebugLogging` (lines 286-294).  The `try` body
is `m_logCategories_enabled[cat] = value`, a `std::map` subscript
assignment that does not throw for any key (it inserts absent keys);
the `catch` branch, which would report an unrecognized category through
`sendToLog(..., fmi2Error, "logStatusError")`, is unreachable. -/
def SetDebugLogging (c : FmuComponentBase) (cat : String) (value : Bool) :
    FmuComponentBase :=
  { c with m_logCategories_enabled := assocSet c.m_logCategories_enabled cat value }

/-- The unit-resolution step of `FmuComponentBase::AddFmuVariable`
(lines 309-322): an unregistered unit name that matches no common unit
throws (`UnknownUnit`); an unregistered name matching a common unit by
name auto-registers that common unit. -/
def AddFmuVariable_unitStep (c : FmuComponentBase) (unitname : String) :
    Except (FmuError × FmuComponentBase) FmuComponentBase :=
  match assocFind c.m_unitDefinitions unitname with
  | some _ => .ok c
  | Option.none =>
    match common_unitdefinitions.find? (fun ud => ud.name = unitname) with
    | Option.none => .error (.UnknownUnit, c)
    | some ud => .ok (c.addUnitDefinition ud)

/-- The variable-creation step of `FmuComponentBase::AddFmuVariable`
(lines 324-346, after the source comment "create new variable"):
duplicate-name check (`DuplicateName`), construction, unit-name /
pre-incremented per-scalar-type value reference / description
assignment, `ExposeCurrentValueAsStart`, insertion into `m_variables`
(a failed `std::set::insert` is a developer error). -/
def AddFmuVariable_createStep (c1 : FmuComponentBase) (varbind : VarBind)
    (name : String) (scalartype : FmuType) (unitname : String)
    (description : String) (causality : CausalityType)
    (variability : VariabilityType) (initial : InitialType) :
    Except (FmuError × FmuComponentBase) (FmuComponentBase × FmuVariableExport) :=
  match c1.findByName name with
  | some _ => .error (.DuplicateName, c1)
  | Option.none =>
    let newvar0 := mkFmuVariableExport varbind name scalartype causality variability initial
    let vr := (assocFind c1.m_valueReferenceCounter scalartype).getD 0 + 1
    let newvar := ((newvar0.SetUnitName unitname).SetValueReference vr
      |>.SetDescription description).ExposeCurrentValueAsStart
    let c2 := { c1 with
      m_valueReferenceCounter := assocSet c1.m_valueReferenceCounter scalartype vr }
    let r := insertByName newvar c2.m_variables
    if r.2 then .ok ({ c2 with m_variables := r.1 }, newvar)
    else .error (.DeveloperError "cannot insert new variable into FMU", c2)

/-- `FmuComponentBase::AddFmuVariable` (lines 301-347): the unit
resolution step followed by the variable creation step.  A C++ `throw`
leaves the component in its state at the throw point; errors therefore
carry that state. -/
def AddFmuVariable (c : FmuComponentBase) (varbind : VarBind) (name : String)
    (scalartype : FmuType) (unitname : String) (description : String)
    (causality : CausalityType) (variability : VariabilityType)
    (initial : InitialType) :
    Except (FmuError × FmuComponentBase) (FmuComponentBase × FmuVariableExport) :=
  match AddFmuVariable_unitStep c unitname with
  | .error e => .error e
  | .ok c1 =>
    AddFmuVariable_createStep c1 varbind name scalartype unitname description
      causality variability initial

/-- `FmuComponentBase::RebindVariable` (lines 349-362): silently returns
false when no variable with the name exists; otherwise copies the
variable, rebinds it, erases the old element and re-inserts the copy. -/
def RebindVariable (c : FmuComponentBase) (varbind : VarBind) (name : String) :
    FmuComponentBase × Bool :=
  match c.findByName name with
  | Option.none => (c, false)
  | some v =>
    let newvar := v.Bind varbind
    let erased := eraseByName name c.m_variables
    let r := insertByName newvar erased
    ({ c with m_variables := r.1 }, r.2)

/-- `FmuComponentBase::addDerivative` (lines 370-388): both the state
name and the derivative name must already be registered variables. -/
def addDerivative (c : FmuComponentBase) (derivative_name state_name : String)
    (dependency_names : List String) :
    Except (FmuError × FmuComponentBase) FmuComponentBase :=
  if (c.findByName state_name).isNone then
    .error (.UnknownVariable state_name, c)
  else if (c.findByName derivative_name).isNone then
    .error (.UnknownVariable derivative_name, c)
  else
    .ok { c with m_derivatives :=
      c.m_derivatives ++ [(derivative_name, (state_name, dependency_names))] }

/-- `FmuComponentBase::isDerivative` (lines 390-395): the associated
state name, or `""`. -/
def isDerivative (c : FmuComponentBase) (name : String) : String :=
  match assocFind c.m_derivatives name with
  | Option.none => ""
  | some p => p.1

/-- `FmuComponentBase::addDependencies` (lines 402-425): the primary
variable and every dependency must be registered; an existing dependency
list is appended to, not replaced. -/
def addDependencies (c : FmuComponentBase) (variable_name : String)
    (dependency_names : List String) :
    Except (FmuError × FmuComponentBase) FmuComponentBase :=
  if (c.findByName variable_name).isNone then
    .error (.UnknownVariable variable_name, c)
  else
    match dependency_names.find? (fun d => (c.findByName d).isNone) with
    | some d => .error (.UnknownVariable d, c)
    | Option.none =>
      match assocFind c.m_variableDependencies variable_name with
      | some old =>
        let deps := assocSet c.m_variableDependencies variable_name (old ++ dependency_names)
        .ok { c with m_variableDependencies := deps }
      | Option.none =>
        let deps := c.m_variableDependencies ++ [(variable_name, dependency_names)]
        .ok { c with m_variableDependencies := deps }

end FmuComponentBase

/-- The build-time `FMU_GUID` macro (defined by the build system, not
under `src/`); modelled from the spec as an arbitrary fixed stability
token. -/
def FMU_GUID : String := "fmu-forge-guid"

/-- The `FmuComponentBase` constructor (lines 190-254): seeds the two
mandatory units `"1"` and `""`, auto-registers the independent `time`
variable (Real, unit `"s"`, causality `independent`, variability
`continuous`), compares the caller-supplied GUID (mismatch is a logged
warning, not a failure) and warns about debug categories missing from
the enabled-category map.  The RFC-3986 resource-location parsing (lines
215-239) only derives `m_resources_location` and logs warnings on
malformed input; no verified property depends on the resources location,
so that field and its parsing are elided. -/
def mkFmuComponentBase (instanceName fmuGUID : String) (loggingOn : Bool)
    (logCategories_init : List (String × Bool))
    (logCategories_debug_init : List String) :
    Except (FmuError × FmuComponentBase) FmuComponentBase :=
  let c0 : FmuComponentBase := {
    m_instanceName := instanceName,
    m_debug_logging_enabled := loggingOn,
    m_fmuMachineState := .instantiated,
    m_unitDefinitions := [("1", { name := "1" }), ("", { name := "" })],
    m_logCategories_enabled := logCategories_init,
    m_logCategories_debug := logCategories_debug_init }
  match c0.AddFmuVariable (.ptr (.realVal 0)) "time" .Real "s" "time"
      .independent .continuous .none with
  | .error e => .error e
  | .ok (c1, _) =>
    let c2 :=
      if fmuGUID ≠ FMU_GUID then
        c1.sendToLog "GUID used for instantiation not matching with source.\n"
          fmi2Warning "logStatusWarning"
      else c1
    let c3 := logCategories_debug_init.foldl
      (fun acc cat =>
        if (assocFind logCategories_init cat).isNone then
          acc.sendToLog ("Developer error: Log category \"" ++ cat ++
            "\" specified to be of debug is not listed as a log category.\n")
            fmi2Warning "logStatusWarning"
        else acc) c2
    .ok c3

/-! ## Lifecycle entry points -/

namespace FmuComponentBase

/-- `FmuComponentBase::EnterInitializationMode` (lines 771-775): set the
machine state, delegate to the model hook, return its status unchanged.
The hook is an overridden virtual; it is passed in explicitly. -/
def EnterInitializationMode (c : FmuComponentBase)
    (enterInitializationModeIMPL : FmuComponentBase → FmuComponentBase × Int) :
    FmuComponentBase × Int :=
  let c1 := { c with m_fmuMachineState := .initializationMode }
  enterInitializationModeIMPL c1

/-- `FmuComponentBase::ExitInitializationMode` (lines 777-782): delegate
to the hook, then unconditionally set the state to `stepCompleted`. -/
def ExitInitializationMode (c : FmuComponentBase)
    (exitInitializationModeIMPL : FmuComponentBase → FmuComponentBase × Int) :
    FmuComponentBase × Int :=
  let r := exitInitializationModeIMPL c
  ({ r.1 with m_fmuMachineState := .stepCompleted }, r.2)

/-- `FmuComponentBase::DoStep` (lines 784-820): run the pre-step
callbacks, delegate to `doStepIMPL`, run the post-step callbacks, map
the returned status onto the machine state
(OK/Warning→stepCompleted, Discard→stepFailed, Error→error,
Fatal→fatal, Pending→stepInProgress) and return the status unchanged;
any other status value throws a developer error.

The callback lists and the stepping hook are opaque `std::function`
values owned by the model author; they are passed in explicitly.  The
two communication-point arguments are consumed only by the hook and are
folded into the `doStepIMPL` parameter. -/
def DoStep (c : FmuComponentBase)
    (preStepCallbacks postStepCallbacks : FmuComponentBase → FmuComponentBase)
    (doStepIMPL : FmuComponentBase → FmuComponentBase × Int) :
    Except (FmuError × FmuComponentBase) (FmuComponentBase × Int) :=
  let c1 := preStepCallbacks c
  let r := doStepIMPL c1
  let c3 := postStepCallbacks r.1
  let status := r.2
  if status = fmi2OK then .ok ({ c3 with m_fmuMachineState := .stepCompleted }, status)
  else if status = fmi2Warning then .ok ({ c3 with m_fmuMachineState := .stepCompleted }, status)
  else if status = fmi2Discard then .ok ({ c3 with m_fmuMachineState := .stepFailed }, status)
  else if status = fmi2Error then .ok ({ c3 with m_fmuMachineState := .error }, status)
  else if status = fmi2Fatal then .ok ({ c3 with m_fmuMachineState := .fatal }, status)
  else if status = fmi2Pending then .ok ({ c3 with m_fmuMachineState := .stepInProgress }, status)
  else .error (.DeveloperError "unexpected status from doStepIMPL", c3)

end FmuComponentBase

/-! ## The model-description serializer (`ExportModelDescription`, lines 429-740)

The XML tree itself is consumed as a primitive (allocate/append/print);
we model the assembled document as a structure holding the same data in
the same traversal order.  On success the document is the content
written to `<path>/modelDescription.xml`; a thrown error means the
`std::ofstream` write at the end of the function was never reached, so
no file (not even a partial one) is produced. -/

/-- One `ScalarVariable` element: attributes in emission order, plus the
nested type-named child element. -/
structure ScalarVariableNode where
  index : Nat
  name : String
  valueReference : Nat
  description : Option String
  causality : Option CausalityType
  variability : Option VariabilityType
  initial : Option InitialType
  typeName : FmuType
  unitAttr : Option String
  startAttr : Option String
  derivativeAttr : Option Nat
  deriving DecidableEq, Repr

/-- The assembled `modelDescription.xml` document. -/
structure ModelDescriptionDoc where
  modelName : String
  guid : String
  units : List UnitDefinition
  logCategories : List (String × String)
  modelVariables : List ScalarVariableNode
  outputs : List Nat
  derivativesStruct : List (Nat × List Nat)
  initialUnknowns : List (Nat × List Nat)
  deriving DecidableEq, Repr

/-- The build-time `FMU_MODEL_IDENTIFIER` macro (not under `src/`). -/
def FMU_MODEL_IDENTIFIER : String := "fmu-forge-model"

namespace FmuComponentBase

/-- The 1-based variable index assignment of `ExportModelDescription`
(lines 592-601): indices follow the deterministic iteration order of
`m_variables`; C++ reads them back through `operator[]`, which yields 0
for a name that was never indexed. -/
def variableIndex (c : FmuComponentBase) (name : String) : Nat :=
  (assocFind ((c.m_variables.enumFrom 1).map (fun p => (p.2.m_name, p.1))) name).getD 0

/-- The dependency-declaration validation loop of `ExportModelDescription`
(lines 649-670): a variable with causality `output` and initial `approx`
or `calculated`, or causality `calculatedParameter`, that has no entry
in `m_variableDependencies` throws. -/
def checkVariableDependencies (c : FmuComponentBase) :
    List FmuVariableExport → Except FmuError Unit
  | [] => .ok ()
  | v :: rest =>
    if (assocFind c.m_variableDependencies v.m_name).isNone ∧
        (v.m_causality = .output ∧
          (v.m_initial = .approx ∨ v.m_initial = .calculated)) then
      .error (.MissingDependencyDeclaration v.m_name)
    else if (assocFind c.m_variableDependencies v.m_name).isNone ∧
        v.m_causality = .calculatedParameter then
      .error (.MissingDependencyDeclaration v.m_name)
    else checkVariableDependencies c rest

/-- One `ScalarVariable` element (lines 604-645): `causality`,
`variability`, `initial` and `description` are omitted at their
defaults (`local`, `continuous`, `none`, empty); the type-named child
carries `unit` (Real with non-empty unit only), `start` (only with a
captured start value) and `derivative` (only for registered
derivatives, the index of the associated state). -/
def scalarVariableNode (c : FmuComponentBase) (v : FmuVariableExport) :
    ScalarVariableNode :=
  { index := c.variableIndex v.m_name,
    name := v.m_name,
    valueReference := v.m_valueReference,
    description := if v.m_description = "" then Option.none else some v.m_description,
    causality := if v.m_causality = .«local» then Option.none else some v.m_causality,
    variability := if v.m_variability = .continuous then Option.none else some v.m_variability,
    initial := if v.m_initial = .none then Option.none else some v.m_initial,
    typeName := v.m_type,
    unitAttr := if v.m_type = .Real ∧ v.m_unitname ≠ "" then some v.m_unitname else Option.none,
    startAttr := if v.m_has_start then some v.GetStartValAsString else Option.none,
    derivativeAttr :=
      if c.isDerivative v.m_name ≠ "" then some (c.variableIndex (c.isDerivative v.m_name))
      else Option.none }

/-- `FmuComponentBase::ExportModelDescription` (lines 429-740).  The
pre/post export hooks are model-author virtuals, passed in explicitly.
The tree is assembled fully in memory; the dependency validation (lines
649-670) runs before the file write (lines 732-735), so on a thrown
`MissingDependencyDeclaration` no `modelDescription.xml` is written. -/
def ExportModelDescription (c0 : FmuComponentBase)
    (preModelDescriptionExport postModelDescriptionExport :
      FmuComponentBase → FmuComponentBase) :
    Except (FmuError × FmuComponentBase) (ModelDescriptionDoc × FmuComponentBase) :=
  let c := preModelDescriptionExport c0
  let unitsNode := c.m_unitDefinitions.map (fun p => p.2)
  let logCategoriesNode := c.m_logCategories_enabled.map (fun p =>
    (p.1, if c.m_logCategories_debug.contains p.1 then "DebugCategory" else "NotDebugCategory"))
  let outputIndices := ((c.m_variables.enumFrom 1).filter
    (fun p => p.2.m_causality = .output)).map (fun p => p.1)
  let modelVarsNode := c.m_variables.map c.scalarVariableNode
  match checkVariableDependencies c c.m_variables with
  | .error e => .error (e, c)
  | .ok () =>
    let derivativesNode := c.m_derivatives.map (fun d =>
      (c.variableIndex d.1, d.2.2.map c.variableIndex))
    let initialUnknownsNode := c.m_variableDependencies.map (fun p =>
      (c.variableIndex p.1, p.2.map c.variableIndex))
    let doc : ModelDescriptionDoc :=
      { modelName := FMU_MODEL_IDENTIFIER,
        guid := FMU_GUID,
        units := unitsNode,
        logCategories := logCategoriesNode,
        modelVariables := modelVarsNode,
        outputs := outputIndices,
        derivativesStruct := derivativesNode,
        initialUnknowns := initialUnknownsNode }
    .ok (doc, postModelDescriptionExport c)

end FmuComponentBase

/-! ## The ABI instantiate entry point -/

/-- `fmi2Instantiate` (`FmuToolsExport.cpp` lines 907-917): calls the
model-supplied `fmi2InstantiateIMPL` (which runs the component
constructor) and casts the resulting pointer for the host.  There is no
`try`/`catch`: a `std::runtime_error` raised during component
construction propagates raw across the ABI boundary instead of being
turned into a null return.  `.ok (some c)` is a non-null component
handle, `.ok none` would be the null/failure return the spec asks for,
and `.error e` is an exception escaping to the host. -/
def fmi2Instantiate
    (fmi2InstantiateIMPL : Except (FmuError × FmuComponentBase) FmuComponentBase) :
    Except (FmuError × FmuComponentBase) (Option FmuComponentBase) :=
  match fmi2InstantiateIMPL with
  | .ok fmu => .ok (some fmu)
  | .error e => .error e

/-! ## The description-generator program (`src/FmuToolsModelDescription.cpp`)

`main` receives `<binaries dir> <library name> [<output dir>]`.  Its
packaged-archive check computes
`dynlib_name.substr(dynlib_name.length() - suffix.length())` with
`suffix = ".fmu"`; the subtraction is performed in `size_t` (wrapping
modulo 2^64) and `std::string::substr(pos)` throws `std::out_of_range`
when `pos > size()`. -/

def SIZE_T_CARD : Nat := 2 ^ 64

/-- `size_t` subtraction `a - b`, wrapping modulo `2^64`: the in-range
difference when `b ≤ a`, and the wrapped-around value otherwise.
`sizeTSub_spec` proves this equal to `(a + (2^64 - b)) % 2^64`, the
usual modular form, for in-range arguments. -/
def sizeTSub (a b : Nat) : Nat :=
  if b ≤ a then a - b else SIZE_T_CARD - (b - a)

theorem sizeTSub_spec (a b : Nat) (ha : a < SIZE_T_CARD) (hb : b ≤ SIZE_T_CARD) :
    sizeTSub a b = (a + (SIZE_T_CARD - b)) % SIZE_T_CARD := by
  unfold sizeTSub SIZE_T_CARD at *
  by_cases h : b ≤ a
  · rw [if_pos h]
    have h1 : a + (2 ^ 64 - b) = (a - b) + 1 * 2 ^ 64 := by omega
    rw [h1, Nat.add_mul_mod_self_right]
    exact (Nat.mod_eq_of_lt (by omega)).symm
  · rw [if_neg h]
    have h2 : a + (2 ^ 64 - b) = 2 ^ 64 - (b - a) := by omega
    rw [h2, Nat.mod_eq_of_lt (by omega)]

/-- `std::string::substr(pos)`: the suffix starting at byte `pos`, or
`std::out_of_range` when `pos > size()`. -/
def substrFrom (s : String) (pos : Nat) : Except Unit String :=
  if pos > s.length then .error () else .ok (s.drop pos)

/-- Outcome of running the description-generator `main` up to the point
where control passes to the (external) dynamic-library loading. -/
inductive MainOutcome where
  | exits (code : Int)
  | proceedsToLink (dynlib_dir dynlib_fullpath output_path : String)
  | uncaughtOutOfRange
  deriving DecidableEq, Repr

/-- The `\` to `/` path normalization loop of `main`. -/
def forwardSlashes (s : String) : String :=
  s.map (fun c => if c = '\\' then '/' else c)

/-- The path normalization and output-path selection of `main`
(`FmuToolsModelDescription.cpp` lines 40-57), performed once the
packaged-archive check has passed; control then passes to the dynamic
linking, an external collaborator. -/
def mainLinkPhase (dynlib_dir0 dynlib_name : String) (outp : Option String) : MainOutcome :=
  let dir1 := forwardSlashes dynlib_dir0
  let dir2 := if dir1 ≠ "" ∧ ¬(dir1.endsWith "/") then dir1 ++ "/" else dir1
  let fullpath := dir2 ++ dynlib_name
  let output_path := match outp with
    | some o => o
    | none => fullpath ++ "/../../"
  .proceedsToLink dir2 fullpath output_path

/-- Body of `main` for the `argc == 3 || argc == 4` branch
(`FmuToolsModelDescription.cpp` lines 30-57): the packaged-archive
suffix check, then the link phase. -/
def mainWithArgs (dynlib_dir0 dynlib_name : String) (outp : Option String) : MainOutcome :=
  let sfx := ".fmu"
  match substrFrom dynlib_name (sizeTSub dynlib_name.length sfx.length) with
  | .error () => .uncaughtOutOfRange
  | .ok tail =>
    if tail = sfx then .exits 3
    else mainLinkPhase dynlib_dir0 dynlib_name outp

/-- `main` of the description-generator program: argument dispatch
(`argv` without the program name). -/
def mainDispatch : List String → MainOutcome
  | [dynlib_dir0, dynlib_name] => mainWithArgs dynlib_dir0 dynlib_name Option.none
  | [dynlib_dir0, dynlib_name, outp] => mainWithArgs dynlib_dir0 dynlib_name (some outp)
  | _ => .exits 4

/-! ## Supporting lemmas: the variable collection and the value-reference allocator -/

theorem findByName_eq_some {c : FmuComponentBase} {name : String} {v : FmuVariableExport}
    (h : c.findByName name = some v) : v ∈ c.m_variables ∧ v.m_name = name := by
  refine ⟨List.mem_of_find?_eq_some h, ?_⟩
  have := List.find?_some h
  simpa using this

theorem findByName_eq_none {c : FmuComponentBase} {name : String}
    (h : c.findByName name = Option.none) : ∀ v ∈ c.m_variables, v.m_name ≠ name := by
  intro v hv
  have := List.find?_eq_none.mp h v hv
  simpa using this

theorem insertByName_fresh (v : FmuVariableExport) (l : List FmuVariableExport)
    (h : ∀ x ∈ l, x.m_name ≠ v.m_name) :
    (insertByName v l).2 = true ∧ (insertByName v l).1.Perm (v :: l) := by
  induction l with
  | nil => simp [insertByName]
  | cons x xs ih =>
    cases hlt : strLt v.m_name x.m_name
    · cases hgt : strLt x.m_name v.m_name
      · exact absurd (strLt_antisymm_eq x.m_name v.m_name hgt hlt)
          (h x (List.mem_cons_self x xs))
      · obtain ⟨h2, hperm⟩ := ih (fun y hy => h y (List.mem_cons_of_mem x hy))
        constructor
        · simp [insertByName, hlt, hgt, h2]
        · simp only [insertByName, hlt, hgt, Bool.false_eq_true, if_false, if_true]
          exact (hperm.cons x).trans (List.Perm.swap v x xs)
    · constructor
      · simp [insertByName, hlt]
      · simp [insertByName, hlt]

theorem eraseByName_perm {l : List FmuVariableExport} {name : String} {v : FmuVariableExport}
    (h : l.find? (fun x => x.m_name = name) = some v) :
    l.Perm (v :: eraseByName name l) := by
  induction l with
  | nil => simp at h
  | cons x xs ih =>
    by_cases hx : x.m_name = name
    · rw [List.find?_cons_of_pos _ (by simpa using hx)] at h
      cases h
      simp [eraseByName, hx]
    · rw [List.find?_cons_of_neg _ (by simpa using hx)] at h
      have := ih h
      simp only [eraseByName, if_neg hx]
      exact (this.cons x).trans (List.Perm.swap v x (eraseByName name xs))

def typeCountL (l : List FmuVariableExport) (t : FmuType) : Nat :=
  (l.filter (fun v => v.m_type = t)).length

theorem typeCountL_perm {l1 l2 : List FmuVariableExport} (h : l1.Perm l2) (t : FmuType) :
    typeCountL l1 t = typeCountL l2 t :=
  (h.filter _).length_eq

theorem typeCountL_cons (v : FmuVariableExport) (l : List FmuVariableExport) (t : FmuType) :
    typeCountL (v :: l) t = (if v.m_type = t then 1 else 0) + typeCountL l t := by
  by_cases h : v.m_type = t <;> simp [typeCountL, List.filter, h, Nat.add_comm]

def counterOf (c : FmuComponentBase) (t : FmuType) : Nat :=
  (assocFind c.m_valueReferenceCounter t).getD 0

def typeCount (c : FmuComponentBase) (t : FmuType) : Nat :=
  typeCountL c.m_variables t

def ValueRefInv (c : FmuComponentBase) : Prop :=
  c.m_variables.Pairwise (fun v w => v.m_name ≠ w.m_name) ∧
  (∀ t, counterOf c t = typeCount c t) ∧
  (∀ v ∈ c.m_variables, 1 ≤ v.m_valueReference ∧ v.m_valueReference ≤ counterOf c v.m_type) ∧
  (∀ v ∈ c.m_variables, ∀ w ∈ c.m_variables, v.m_type = w.m_type →
    v.m_valueReference = w.m_valueReference → v = w)

instance : Fintype FmuType where
  elems := ⟨[FmuType.Real, FmuType.Integer, FmuType.Boolean, FmuType.String, FmuType.Unknown], by decide⟩
  complete := fun x => by cases x <;> decide

instance (c : FmuComponentBase) : Decidable (ValueRefInv c) := by
  unfold ValueRefInv; infer_instance

-- projections of the freshly constructed variable
theorem newvar_fields (vb : VarBind) (name : String) (t : FmuType) (u d : String)
    (ca : CausalityType) (va : VariabilityType) (init : InitialType) (vr : Nat) :
    ((((mkFmuVariableExport vb name t ca va init).SetUnitName u).SetValueReference vr
        |>.SetDescription d).ExposeCurrentValueAsStart).m_name = name ∧
    ((((mkFmuVariableExport vb name t ca va init).SetUnitName u).SetValueReference vr
        |>.SetDescription d).ExposeCurrentValueAsStart).m_type = t ∧
    ((((mkFmuVariableExport vb name t ca va init).SetUnitName u).SetValueReference vr
        |>.SetDescription d).ExposeCurrentValueAsStart).m_valueReference = vr := by
  unfold FmuVariableExport.ExposeCurrentValueAsStart FmuVariableExport.SetDescription
    FmuVariableExport.SetValueReference FmuVariableExport.SetUnitName mkFmuVariableExport
  dsimp only
  split <;> split <;> simp_all

theorem AddFmuVariable_createStep_ok_spec
    (c1 : FmuComponentBase) (vb : VarBind) (name : String) (t : FmuType)
    (u d : String) (ca : CausalityType) (va : VariabilityType) (init : InitialType)
    {c' : FmuComponentBase} {newvar : FmuVariableExport}
    (hinv : ValueRefInv c1)
    (hok : FmuComponentBase.AddFmuVariable_createStep c1 vb name t u d ca va init =
      .ok (c', newvar)) :
    ValueRefInv c' ∧
    newvar.m_type = t ∧ newvar.m_name = name ∧
    newvar.m_valueReference = typeCount c1 t + 1 ∧
    (∀ v ∈ c1.m_variables, v.m_type = t → v.m_valueReference < newvar.m_valueReference) ∧
    c'.m_variables.Perm (newvar :: c1.m_variables) := by
  obtain ⟨hpair, hcnts, hbounds, hinj⟩ := hinv
  rcases hfind : c1.findByName name with _ | v0
  · -- fresh name: the ok path
    simp only [FmuComponentBase.AddFmuVariable_createStep, hfind] at hok
    have hfresh : ∀ x ∈ c1.m_variables, x.m_name ≠ name := findByName_eq_none hfind
    obtain ⟨hnm, hty, hvr⟩ := newvar_fields vb name t u d ca va init
      ((assocFind c1.m_valueReferenceCounter t).getD 0 + 1)
    obtain ⟨hflag, hperm⟩ := insertByName_fresh _ c1.m_variables
      (fun x hx => by rw [hnm]; exact hfresh x hx)
    rw [hflag] at hok
    simp only [if_true, Except.ok.injEq, Prod.mk.injEq] at hok
    obtain ⟨hc', hnv⟩ := hok
    subst hc'
    subst hnv
    -- abbreviations
    set nv := ((((mkFmuVariableExport vb name t ca va init).SetUnitName u).SetValueReference
      ((assocFind c1.m_valueReferenceCounter t).getD 0 + 1)).SetDescription
      d).ExposeCurrentValueAsStart with hnvdef
    have hvr' : nv.m_valueReference = counterOf c1 t + 1 := hvr
    have hcounter : counterOf c1 t = typeCount c1 t := hcnts t
    refine ⟨⟨?_, ?_, ?_, ?_⟩, hty, hnm, by rw [hvr', hcounter], ?_, hperm⟩
    · -- pairwise names
      refine (hperm.pairwise_iff (fun h => Ne.symm h)).mpr ?_
      exact List.Pairwise.cons (fun x hx => by rw [hnm]; exact (hfresh x hx).symm) hpair
    · -- counters track counts
      intro s
      have hvars : ({ c1 with
          m_valueReferenceCounter := assocSet c1.m_valueReferenceCounter t
            ((assocFind c1.m_valueReferenceCounter t).getD 0 + 1),
          m_variables := (insertByName nv c1.m_variables).1 } :
          FmuComponentBase).m_variables = (insertByName nv c1.m_variables).1 := rfl
      by_cases hs : s = t
      · subst hs
        have h1 : counterOf { c1 with
            m_valueReferenceCounter := assocSet c1.m_valueReferenceCounter s
              ((assocFind c1.m_valueReferenceCounter s).getD 0 + 1),
            m_variables := (insertByName nv c1.m_variables).1 } s =
            counterOf c1 s + 1 := by
          simp [counterOf, assocFind_assocSet_self]
        rw [h1]
        show counterOf c1 s + 1 = typeCountL (insertByName nv c1.m_variables).1 s
        rw [typeCountL_perm hperm, typeCountL_cons, hty, if_pos rfl, hcnts s]
        simp [typeCount, Nat.add_comm]
      · have h1 : counterOf { c1 with
            m_valueReferenceCounter := assocSet c1.m_valueReferenceCounter t
              ((assocFind c1.m_valueReferenceCounter t).getD 0 + 1),
            m_variables := (insertByName nv c1.m_variables).1 } s = counterOf c1 s := by
          simp [counterOf, assocFind_assocSet_ne _ _ _ _ hs]
        rw [h1]
        show counterOf c1 s = typeCountL (insertByName nv c1.m_variables).1 s
        rw [typeCountL_perm hperm, typeCountL_cons, hty, if_neg (Ne.symm hs), hcnts s]
        simp [typeCount]
    · -- bounds
      intro v hv
      have hv' : v = nv ∨ v ∈ c1.m_variables := by
        have := hperm.mem_iff.mp hv
        simpa using this
      have hcself : counterOf { c1 with
          m_valueReferenceCounter := assocSet c1.m_valueReferenceCounter t
            ((assocFind c1.m_valueReferenceCounter t).getD 0 + 1),
          m_variables := (insertByName nv c1.m_variables).1 } t =
          counterOf c1 t + 1 := by
        simp [counterOf, assocFind_assocSet_self]
      rcases hv' with rfl | hv'
      · rw [hty, hcself, hvr']
        omega
      · obtain ⟨hb1, hb2⟩ := hbounds v hv'
        refine ⟨hb1, ?_⟩
        by_cases hvt : v.m_type = t
        · rw [hvt, hcself]
          rw [hvt] at hb2
          omega
        · have : counterOf { c1 with
              m_valueReferenceCounter := assocSet c1.m_valueReferenceCounter t
                ((assocFind c1.m_valueReferenceCounter t).getD 0 + 1),
              m_variables := (insertByName nv c1.m_variables).1 } v.m_type =
              counterOf c1 v.m_type := by
            simp [counterOf, assocFind_assocSet_ne _ _ _ _ hvt]
          rw [this]
          exact hb2
    · -- injectivity of value references within a type
      intro v hv w hw htvw hvrvw
      have hv' : v = nv ∨ v ∈ c1.m_variables := by simpa using hperm.mem_iff.mp hv
      have hw' : w = nv ∨ w ∈ c1.m_variables := by simpa using hperm.mem_iff.mp hw
      rcases hv' with rfl | hv' <;> rcases hw' with rfl | hw'
      · rfl
      · exfalso
        rw [hty] at htvw
        obtain ⟨_, hb2⟩ := hbounds w hw'
        rw [← htvw] at hb2
        rw [hvr'] at hvrvw
        omega
      · exfalso
        rw [hty] at htvw
        obtain ⟨_, hb2⟩ := hbounds v hv'
        rw [htvw] at hb2
        rw [hvr'] at hvrvw
        omega
      · exact hinj v hv' w hw' htvw hvrvw
    · -- every existing variable of type t has a smaller value reference
      intro v hv hvt
      obtain ⟨_, hb2⟩ := hbounds v hv
      rw [hvt] at hb2
      rw [hvr']
      omega
  · -- duplicate name: contradiction with hok
    simp [FmuComponentBase.AddFmuVariable_createStep, hfind] at hok

theorem ValueRefInv_congr {c c' : FmuComponentBase}
    (hv : c'.m_variables = c.m_variables)
    (hc : c'.m_valueReferenceCounter = c.m_valueReferenceCounter) :
    ValueRefInv c → ValueRefInv c' := by
  intro h
  unfold ValueRefInv counterOf typeCount at *
  rw [hv, hc]
  exact h

theorem unitStep_cases (c : FmuComponentBase) (u : String) :
    ((assocFind c.m_unitDefinitions u).isSome ∧
      FmuComponentBase.AddFmuVariable_unitStep c u = .ok c) ∨
    (assocFind c.m_unitDefinitions u = Option.none ∧
      ∃ ud, common_unitdefinitions.find? (fun x => x.name = u) = some ud ∧
        FmuComponentBase.AddFmuVariable_unitStep c u = .ok (c.addUnitDefinition ud)) ∨
    (assocFind c.m_unitDefinitions u = Option.none ∧
      common_unitdefinitions.find? (fun x => x.name = u) = Option.none ∧
      FmuComponentBase.AddFmuVariable_unitStep c u = .error (.UnknownUnit, c)) := by
  rcases hu : assocFind c.m_unitDefinitions u with _ | u0
  · rcases hcu : common_unitdefinitions.find? (fun x => x.name = u) with _ | ud
    · exact Or.inr (Or.inr ⟨rfl, hcu, by
        simp [FmuComponentBase.AddFmuVariable_unitStep, hu, hcu]⟩)
    · exact Or.inr (Or.inl ⟨rfl, ud, hcu, by
        simp [FmuComponentBase.AddFmuVariable_unitStep, hu, hcu]⟩)
  · exact Or.inl ⟨by simp [hu], by simp [FmuComponentBase.AddFmuVariable_unitStep, hu]⟩

theorem AddFmuVariable_createStep_error_spec
    (c1 : FmuComponentBase) (vb : VarBind) (name : String) (t : FmuType)
    (u d : String) (ca : CausalityType) (va : VariabilityType) (init : InitialType)
    {e : FmuError} {c' : FmuComponentBase}
    (herr : FmuComponentBase.AddFmuVariable_createStep c1 vb name t u d ca va init =
      .error (e, c')) :
    c' = c1 ∧ e = FmuError.DuplicateName ∧ ∃ v0, c1.findByName name = some v0 := by
  rcases hfind : c1.findByName name with _ | v0
  · exfalso
    simp only [FmuComponentBase.AddFmuVariable_createStep, hfind] at herr
    have hfresh := findByName_eq_none hfind
    obtain ⟨hnm, _, _⟩ := newvar_fields vb name t u d ca va init
      ((assocFind c1.m_valueReferenceCounter t).getD 0 + 1)
    obtain ⟨hflag, _⟩ := insertByName_fresh _ c1.m_variables
      (fun x hx => by rw [hnm]; exact hfresh x hx)
    rw [hflag] at herr
    simp at herr
  · simp only [FmuComponentBase.AddFmuVariable_createStep, hfind, Except.error.injEq,
      Prod.mk.injEq] at herr
    exact ⟨herr.2.symm, herr.1.symm, v0, rfl⟩

theorem AddFmuVariable_error_spec
    (c : FmuComponentBase) (vb : VarBind) (name : String) (t : FmuType)
    (u d : String) (ca : CausalityType) (va : VariabilityType) (init : InitialType)
    {e : FmuError} {c' : FmuComponentBase}
    (herr : c.AddFmuVariable vb name t u d ca va init = .error (e, c')) :
    c'.m_variables = c.m_variables ∧
    c'.m_valueReferenceCounter = c.m_valueReferenceCounter := by
  rcases unitStep_cases c u with ⟨hu, hstep⟩ | ⟨hu, ud, hcu, hstep⟩ | ⟨hu, hcu, hstep⟩ <;>
    simp only [FmuComponentBase.AddFmuVariable, hstep] at herr
  · obtain ⟨h1, _, _⟩ := AddFmuVariable_createStep_error_spec c vb name t u d ca va init herr
    rw [h1]
    exact ⟨rfl, rfl⟩
  · obtain ⟨h1, _, _⟩ := AddFmuVariable_createStep_error_spec (c.addUnitDefinition ud)
      vb name t u d ca va init herr
    rw [h1]
    exact ⟨rfl, rfl⟩
  · simp only [Except.error.injEq, Prod.mk.injEq] at herr
    rw [← herr.2]
    exact ⟨rfl, rfl⟩

theorem AddFmuVariable_ok_spec
    (c : FmuComponentBase) (vb : VarBind) (name : String) (t : FmuType)
    (u d : String) (ca : CausalityType) (va : VariabilityType) (init : InitialType)
    {c' : FmuComponentBase} {newvar : FmuVariableExport}
    (hinv : ValueRefInv c)
    (hok : c.AddFmuVariable vb name t u d ca va init = .ok (c', newvar)) :
    ValueRefInv c' ∧
    newvar.m_type = t ∧ newvar.m_name = name ∧
    newvar.m_valueReference = typeCount c t + 1 ∧
    (∀ v ∈ c.m_variables, v.m_type = t → v.m_valueReference < newvar.m_valueReference) ∧
    c'.m_variables.Perm (newvar :: c.m_variables) := by
  rcases unitStep_cases c u with ⟨hu, hstep⟩ | ⟨hu, ud, hcu, hstep⟩ | ⟨hu, hcu, hstep⟩ <;>
    simp only [FmuComponentBase.AddFmuVariable, hstep] at hok
  · exact AddFmuVariable_createStep_ok_spec c vb name t u d ca va init hinv hok
  · have hinv1 : ValueRefInv (c.addUnitDefinition ud) := ValueRefInv_congr rfl rfl hinv
    exact AddFmuVariable_createStep_ok_spec (c.addUnitDefinition ud)
      vb name t u d ca va init hinv1 hok
  · simp at hok

theorem RebindVariable_spec (c : FmuComponentBase) (vb : VarBind) (name : String)
    (hinv : ValueRefInv c) :
    ValueRefInv (c.RebindVariable vb name).1 ∧
    (∀ v, c.findByName name = some v →
      (v.Bind vb) ∈ (c.RebindVariable vb name).1.m_variables) := by
  obtain ⟨hpair, hcnts, hbounds, hinj⟩ := hinv
  rcases hfind : c.findByName name with _ | v
  · constructor
    · simp only [FmuComponentBase.RebindVariable, hfind]
      exact ⟨hpair, hcnts, hbounds, hinj⟩
    · intro v hv
      simp at hv
  · have hvmem : v ∈ c.m_variables := (findByName_eq_some hfind).1
    have hvname : v.m_name = name := (findByName_eq_some hfind).2
    have hperm1 : c.m_variables.Perm (v :: eraseByName name c.m_variables) :=
      eraseByName_perm hfind
    have hpair1 : (v :: eraseByName name c.m_variables).Pairwise
        (fun a b => a.m_name ≠ b.m_name) :=
      (hperm1.pairwise_iff (fun h => Ne.symm h)).mp hpair
    have hfr : ∀ x ∈ eraseByName name c.m_variables, v.m_name ≠ x.m_name :=
      fun x hx => List.rel_of_pairwise_cons hpair1 hx
    have hfr' : ∀ x ∈ eraseByName name c.m_variables, x.m_name ≠ (v.Bind vb).m_name :=
      fun x hx => Ne.symm (hfr x hx)
    obtain ⟨hflag, hperm2⟩ := insertByName_fresh (v.Bind vb) _ hfr'
    have hres : (c.RebindVariable vb name).1 = { c with
        m_variables := (insertByName (v.Bind vb) (eraseByName name c.m_variables)).1 } := by
      simp only [FmuComponentBase.RebindVariable, hfind]
    rw [hres]
    -- the result's variable list is, up to permutation, c's with v replaced by v.Bind vb
    have hperm3 : (insertByName (v.Bind vb) (eraseByName name c.m_variables)).1.Perm
        ((v.Bind vb) :: eraseByName name c.m_variables) := hperm2
    have hmem : ∀ x, x ∈ (insertByName (v.Bind vb) (eraseByName name c.m_variables)).1 ↔
        (x = v.Bind vb ∨ x ∈ eraseByName name c.m_variables) := by
      intro x
      rw [hperm3.mem_iff]
      simp
    have herased_mem : ∀ x ∈ eraseByName name c.m_variables, x ∈ c.m_variables :=
      fun x hx => hperm1.mem_iff.mpr (List.mem_cons_of_mem v hx)
    refine ⟨⟨?_, ?_, ?_, ?_⟩, ?_⟩
    · -- pairwise names
      refine (hperm3.pairwise_iff (fun h => Ne.symm h)).mpr ?_
      refine List.Pairwise.cons (fun x hx => hfr x hx) ?_
      exact List.Pairwise.sublist (by exact (List.sublist_cons_self v _)) hpair1
    · -- counters
      intro t
      show counterOf c t = typeCountL (insertByName (v.Bind vb) (eraseByName name c.m_variables)).1 t
      rw [typeCountL_perm hperm3, typeCountL_cons]
      have : typeCount c t = typeCountL (v :: eraseByName name c.m_variables) t :=
        typeCountL_perm hperm1 t
      rw [typeCountL_cons] at this
      rw [hcnts t, this]
      rfl
    · -- bounds
      intro x hx
      rcases (hmem x).mp hx with rfl | hx'
      · exact hbounds v hvmem
      · exact hbounds x (herased_mem x hx')
    · -- injectivity
      intro x hx y hy htxy hvrxy
      rcases (hmem x).mp hx with rfl | hx' <;> rcases (hmem y).mp hy with rfl | hy'
      · rfl
      · exfalso
        have : v = y := hinj v hvmem y (herased_mem y hy') htxy hvrxy
        exact hfr y hy' (by rw [← this])
      · exfalso
        have : x = v := hinj x (herased_mem x hx') v hvmem htxy hvrxy
        exact hfr x hx' (by rw [this])
      · exact hinj x (herased_mem x hx') y (herased_mem y hy') htxy hvrxy
    · -- membership of the rebound variable
      intro w hw
      cases hw
      exact (hmem (v.Bind vb)).mpr (Or.inl rfl)

inductive RegistryOp where
  | add (varbind : VarBind) (name : String) (scalartype : FmuType)
      (unitname description : String) (causality : CausalityType)
      (variability : VariabilityType) (initial : InitialType)
  | rebind (varbind : VarBind) (name : String)

def applyOp (c : FmuComponentBase) : RegistryOp → FmuComponentBase
  | .add vb name t u d ca va init =>
    match c.AddFmuVariable vb name t u d ca va init with
    | .ok r => r.1
    | .error e => e.2
  | .rebind vb name => (c.RebindVariable vb name).1

def applyOps (c : FmuComponentBase) (ops : List RegistryOp) : FmuComponentBase :=
  ops.foldl applyOp c

theorem applyOp_inv (c : FmuComponentBase) (op : RegistryOp) (hinv : ValueRefInv c) :
    ValueRefInv (applyOp c op) := by
  cases op with
  | add vb name t u d ca va init =>
    rcases h : c.AddFmuVariable vb name t u d ca va init with ⟨err, cE⟩ | ⟨cO, nv⟩
    · simp only [applyOp, h]
      obtain ⟨h1, h2⟩ := AddFmuVariable_error_spec c vb name t u d ca va init h
      exact ValueRefInv_congr h1 h2 hinv
    · simp only [applyOp, h]
      exact (AddFmuVariable_ok_spec c vb name t u d ca va init hinv h).1
  | rebind vb name =>
    exact (RebindVariable_spec c vb name hinv).1

theorem applyOps_inv (c : FmuComponentBase) (ops : List RegistryOp)
    (hinv : ValueRefInv c) : ValueRefInv (applyOps c ops) := by
  induction ops generalizing c with
  | nil => exact hinv
  | cons op rest ih => exact ih (applyOp c op) (applyOp_inv c op hinv)

/-! ## Verified properties -/

theorem sizeTSub_gt_of_lt {n : Nat} (h : n < 4) : n < sizeTSub n 4 := by
  unfold sizeTSub SIZE_T_CARD
  rw [if_neg (by omega)]
  omega

theorem sizeTSub_eq_of_ge {n : Nat} (h4 : 4 ≤ n) : sizeTSub n 4 = n - 4 := by
  unfold sizeTSub
  rw [if_pos h4]

/-- C10: for every invocation of the description-generator program
with a library-name argument of fewer than 4 characters, the
packaged-archive suffix check computes a substring position by `size_t`
underflow of `length - ".fmu".length`, and `std::string::substr` throws
an uncaught `std::out_of_range`, so the program terminates instead of
returning one of its documented exit codes; for library names of length
at least 4 the check is well defined (the substring call succeeds) and
the program takes a documented path (exit code 3 for a packaged
archive, or on to the dynamic-linking phase). -/
theorem C10_archive_check_underflow (dynlib_dir dynlib_name : String)
    (outp : Option String) :
    (dynlib_name.length < 4 →
      mainWithArgs dynlib_dir dynlib_name outp = MainOutcome.uncaughtOutOfRange ∧
      mainDispatch [dynlib_dir, dynlib_name] = MainOutcome.uncaughtOutOfRange) ∧
    (4 ≤ dynlib_name.length →
      substrFrom dynlib_name (sizeTSub dynlib_name.length 4) =
        Except.ok (dynlib_name.drop (dynlib_name.length - 4)) ∧
      (mainWithArgs dynlib_dir dynlib_name outp = MainOutcome.exits 3 ∨
        mainWithArgs dynlib_dir dynlib_name outp =
          mainLinkPhase dynlib_dir dynlib_name outp)) := by
  constructor
  · intro h
    have hgt := sizeTSub_gt_of_lt h
    have hsub : substrFrom dynlib_name (sizeTSub dynlib_name.length 4) =
        Except.error () := by
      unfold substrFrom
      rw [if_pos hgt]
    constructor
    · unfold mainWithArgs
      dsimp only
      rw [show (".fmu" : String).length = 4 from rfl, hsub]
    · show mainWithArgs dynlib_dir dynlib_name Option.none = MainOutcome.uncaughtOutOfRange
      unfold mainWithArgs
      dsimp only
      rw [show (".fmu" : String).length = 4 from rfl, hsub]
  · intro h4
    have hpos := sizeTSub_eq_of_ge h4
    have hsub : substrFrom dynlib_name (sizeTSub dynlib_name.length 4) =
        Except.ok (dynlib_name.drop (dynlib_name.length - 4)) := by
      unfold substrFrom
      rw [hpos, if_neg (by omega)]
    refine ⟨hsub, ?_⟩
    by_cases hc : dynlib_name.drop (dynlib_name.length - 4) = ".fmu"
    · left
      unfold mainWithArgs
      dsimp only
      rw [show (".fmu" : String).length = 4 from rfl, hsub]
      dsimp only
      rw [if_pos hc]
    · right
      unfold mainWithArgs
      dsimp only
      rw [show (".fmu" : String).length = 4 from rfl, hsub]
      dsimp only
      rw [if_neg hc]

/-- Concrete instantiation of `C10_archive_check_underflow`: the
three-character library name `"abc"` crashes the program; the
well-formed name `"model.fmu"` takes a documented path. -/
theorem C10_archive_check_underflow_witness :
    mainDispatch ["bin", "abc"] = MainOutcome.uncaughtOutOfRange ∧
    substrFrom "model.fmu" (sizeTSub ("model.fmu" : String).length 4) =
      Except.ok (("model.fmu" : String).drop (("model.fmu" : String).length - 4)) ∧
    (mainWithArgs "bin" "model.fmu" Option.none = MainOutcome.exits 3 ∨
      mainWithArgs "bin" "model.fmu" Option.none =
        mainLinkPhase "bin" "model.fmu" Option.none) :=
  ⟨((C10_archive_check_underflow "bin" "abc" Option.none).1 (by decide)).2,
   ((C10_archive_check_underflow "bin" "model.fmu" Option.none).2 (by decide)).1,
   ((C10_archive_check_underflow "bin" "model.fmu" Option.none).2 (by decide)).2⟩

/-! ## The claims -/

-- spec-side table for C2 (refinement comparison)
inductive StartRule where
  | forbidden
  | required
  | optional
  deriving DecidableEq, Repr

def specStartRule (causality : CausalityType) (initial : InitialType) : StartRule :=
  if initial = .calculated ∨ causality = .independent then .forbidden
  else if initial = .exact ∨ initial = .approx ∨ causality = .input then .required
  else .optional

/-- C2: for every variable created via `AddFmuVariable`'s constructor,
the derived flags start-allowed and start-required are exactly the
function of (causality, initial) given by the spec §3 table — start
forbidden when initial = calculated or causality = independent, start
required (and allowed) when initial = exact or approx or causality =
input, optional otherwise — and supplying a start value for a variable
whose causality is independent is ignored (`SetStartVal` is a no-op when
start is not allowed).  The hypothesis excludes the (causality, initial)
combinations on which the two table rows contradict each other and the
table therefore defines no function. -/
theorem C2_start_flags_follow_table (vb : VarBind) (name : String) (t : FmuType)
    (ca : CausalityType) (va : VariabilityType) (init : InitialType)
    (hnoconflict : ¬((init = InitialType.calculated ∨ ca = CausalityType.independent) ∧
      (init = InitialType.exact ∨ init = InitialType.approx ∨ ca = CausalityType.input))) :
    ((mkFmuVariableExport vb name t ca va init).m_allowed_start,
      (mkFmuVariableExport vb name t ca va init).m_required_start) =
      (match specStartRule ca init with
        | StartRule.forbidden => (false, false)
        | StartRule.required => (true, true)
        | StartRule.optional => (true, false)) ∧
    (ca = CausalityType.independent →
      ∀ s, (mkFmuVariableExport vb name t ca va init).SetStartVal s =
        mkFmuVariableExport vb name t ca va init) := by
  cases ca <;> cases init <;>
    simp_all [mkFmuVariableExport, specStartRule, FmuVariableExport.SetStartVal]

theorem C2_start_flags_follow_table_witness :
    ((mkFmuVariableExport (VarBind.ptr (FmuVarValue.realVal 0)) "time" FmuType.Real
        CausalityType.independent VariabilityType.continuous InitialType.none).m_allowed_start,
      (mkFmuVariableExport (VarBind.ptr (FmuVarValue.realVal 0)) "time" FmuType.Real
        CausalityType.independent VariabilityType.continuous InitialType.none).m_required_start) =
      (match specStartRule CausalityType.independent InitialType.none with
        | StartRule.forbidden => (false, false)
        | StartRule.required => (true, true)
        | StartRule.optional => (true, false)) ∧
    (mkFmuVariableExport (VarBind.ptr (FmuVarValue.realVal 0)) "time" FmuType.Real
        CausalityType.independent VariabilityType.continuous InitialType.none).SetStartVal
        (FmuVarValue.realVal 7) =
      mkFmuVariableExport (VarBind.ptr (FmuVarValue.realVal 0)) "time" FmuType.Real
        CausalityType.independent VariabilityType.continuous InitialType.none :=
  ⟨(C2_start_flags_follow_table (VarBind.ptr (FmuVarValue.realVal 0)) "time" FmuType.Real
      CausalityType.independent VariabilityType.continuous InitialType.none (by decide)).1,
   (C2_start_flags_follow_table (VarBind.ptr (FmuVarValue.realVal 0)) "time" FmuType.Real
      CausalityType.independent VariabilityType.continuous InitialType.none (by decide)).2
      rfl (FmuVarValue.realVal 7)⟩

-- shared concrete component for witnesses (demo-style construction)
def demoLogCategories : List (String × Bool) :=
  [("logAll", true), ("logStatusWarning", true), ("logStatusError", false)]

def demoComponent : FmuComponentBase :=
  match mkFmuComponentBase "instance" FMU_GUID false demoLogCategories ["logStatusWarning"] with
  | .ok c => c
  | .error e => e.2

-- C4 ---------------------------------------------------------------
/-- C4: for every call to `DoStep`, when the stepping hook returns OK,
Warning, Discard, Error, Fatal or Pending, the lifecycle state
afterwards is stepCompleted, stepCompleted, stepFailed, error, fatal or
stepInProgress respectively and the hook's status is returned to the
caller unchanged; any other status value throws a developer error
(never silent acceptance). -/
theorem C4_doStep_status_mapping (c : FmuComponentBase)
    (pre post : FmuComponentBase → FmuComponentBase)
    (hook : FmuComponentBase → FmuComponentBase × Int) :
    ((hook (pre c)).2 = fmi2OK →
      c.DoStep pre post hook = Except.ok
        ({ post (hook (pre c)).1 with m_fmuMachineState := FmuMachineState.stepCompleted },
          (hook (pre c)).2)) ∧
    ((hook (pre c)).2 = fmi2Warning →
      c.DoStep pre post hook = Except.ok
        ({ post (hook (pre c)).1 with m_fmuMachineState := FmuMachineState.stepCompleted },
          (hook (pre c)).2)) ∧
    ((hook (pre c)).2 = fmi2Discard →
      c.DoStep pre post hook = Except.ok
        ({ post (hook (pre c)).1 with m_fmuMachineState := FmuMachineState.stepFailed },
          (hook (pre c)).2)) ∧
    ((hook (pre c)).2 = fmi2Error →
      c.DoStep pre post hook = Except.ok
        ({ post (hook (pre c)).1 with m_fmuMachineState := FmuMachineState.error },
          (hook (pre c)).2)) ∧
    ((hook (pre c)).2 = fmi2Fatal →
      c.DoStep pre post hook = Except.ok
        ({ post (hook (pre c)).1 with m_fmuMachineState := FmuMachineState.fatal },
          (hook (pre c)).2)) ∧
    ((hook (pre c)).2 = fmi2Pending →
      c.DoStep pre post hook = Except.ok
        ({ post (hook (pre c)).1 with m_fmuMachineState := FmuMachineState.stepInProgress },
          (hook (pre c)).2)) ∧
    ((hook (pre c)).2 ≠ fmi2OK → (hook (pre c)).2 ≠ fmi2Warning →
      (hook (pre c)).2 ≠ fmi2Discard → (hook (pre c)).2 ≠ fmi2Error →
      (hook (pre c)).2 ≠ fmi2Fatal → (hook (pre c)).2 ≠ fmi2Pending →
      c.DoStep pre post hook = Except.error
        (FmuError.DeveloperError "unexpected status from doStepIMPL",
          post (hook (pre c)).1)) := by
  unfold FmuComponentBase.DoStep
  refine ⟨?_, ?_, ?_, ?_, ?_, ?_, ?_⟩
  · intro h
    rw [if_pos h]
  · intro h
    rw [if_neg (by rw [h]; decide), if_pos h]
  · intro h
    rw [if_neg (by rw [h]; decide), if_neg (by rw [h]; decide), if_pos h]
  · intro h
    rw [if_neg (by rw [h]; decide), if_neg (by rw [h]; decide),
      if_neg (by rw [h]; decide), if_pos h]
  · intro h
    rw [if_neg (by rw [h]; decide), if_neg (by rw [h]; decide),
      if_neg (by rw [h]; decide), if_neg (by rw [h]; decide), if_pos h]
  · intro h
    rw [if_neg (by rw [h]; decide), if_neg (by rw [h]; decide),
      if_neg (by rw [h]; decide), if_neg (by rw [h]; decide),
      if_neg (by rw [h]; decide), if_pos h]
  · intro h1 h2 h3 h4 h5 h6
    rw [if_neg h1, if_neg h2, if_neg h3, if_neg h4, if_neg h5, if_neg h6]

theorem C4_doStep_status_mapping_witness :
    demoComponent.DoStep id id (fun x => (x, fmi2Discard)) = Except.ok
      ({ demoComponent with m_fmuMachineState := FmuMachineState.stepFailed }, fmi2Discard) ∧
    demoComponent.DoStep id id (fun x => (x, 42)) = Except.error
      (FmuError.DeveloperError "unexpected status from doStepIMPL", demoComponent) :=
  ⟨(C4_doStep_status_mapping demoComponent id id (fun x => (x, fmi2Discard))).2.2.1 rfl,
   (C4_doStep_status_mapping demoComponent id id (fun x => (x, 42))).2.2.2.2.2.2
     (by decide) (by decide) (by decide) (by decide) (by decide) (by decide)⟩

-- C8 ---------------------------------------------------------------
/-- C8: `sendToLog(message, status, category)` invokes the
host-supplied logging callback — passing the instance name, status,
category and message verbatim — exactly when the category is not a
known log category (defensive pass-through), or the category is
enabled, or debug logging is globally enabled and the category is in
the debug set; in every other case nothing is emitted. -/
theorem C8_sendToLog_gating (c : FmuComponentBase) (msg : String) (status : Int)
    (cat : String) :
    ((assocFind c.m_logCategories_enabled cat = Option.none ∨
      assocFind c.m_logCategories_enabled cat = some true ∨
      (c.m_debug_logging_enabled = true ∧ cat ∈ c.m_logCategories_debug)) →
      c.sendToLog msg status cat = { c with loggerCalls :=
        c.loggerCalls ++ [⟨c.m_instanceName, status, cat, msg⟩] }) ∧
    (¬(assocFind c.m_logCategories_enabled cat = Option.none ∨
      assocFind c.m_logCategories_enabled cat = some true ∨
      (c.m_debug_logging_enabled = true ∧ cat ∈ c.m_logCategories_debug)) →
      c.sendToLog msg status cat = c) := by
  constructor
  · intro h
    unfold FmuComponentBase.sendToLog
    rcases hf : assocFind c.m_logCategories_enabled cat with _ | b
    · rw [if_pos (by simp [hf])]
    · rcases h with h | h | ⟨hd, hmem⟩
      · rw [hf] at h
        cases h
      · rw [hf] at h
        injection h with h
        subst h
        rw [if_pos (by simp [hf])]
      · have hcont : c.m_logCategories_debug.contains cat = true := by
          simpa [List.contains] using List.elem_iff.mpr hmem
        rw [if_pos (by simp [hf, hd, hcont, hmem])]
  · intro h
    push_neg at h
    obtain ⟨h1, h2, h3⟩ := h
    unfold FmuComponentBase.sendToLog
    rcases hf : assocFind c.m_logCategories_enabled cat with _ | b
    · exact absurd hf h1
    · have hb : b = false := by
        cases b
        · rfl
        · exact absurd hf h2
      subst hb
      have hdc : (c.m_debug_logging_enabled && c.m_logCategories_debug.contains cat) = false := by
        cases hdbg : c.m_debug_logging_enabled
        · simp
        · have hnot : cat ∉ c.m_logCategories_debug := h3 hdbg
          cases hc : c.m_logCategories_debug.contains cat
          · simp
          · have hc' : c.m_logCategories_debug.elem cat = true := by
              simpa [List.contains] using hc
            exact absurd (List.elem_iff.mp hc') hnot
      rw [if_neg (by simp [hf, hdc]; exact h3)]

theorem C8_sendToLog_gating_witness :
    demoComponent.sendToLog "step ok" 0 "logAll" = { demoComponent with loggerCalls :=
      demoComponent.loggerCalls ++ [⟨demoComponent.m_instanceName, 0, "logAll", "step ok"⟩] } ∧
    demoComponent.sendToLog "quiet" 0 "logStatusError" = demoComponent :=
  ⟨(C8_sendToLog_gating demoComponent "step ok" 0 "logAll").1 (by decide),
   (C8_sendToLog_gating demoComponent "quiet" 0 "logStatusError").2 (by decide)⟩

-- C9 ---------------------------------------------------------------
/-- C9: `SetDebugLogging(category, value)` never reports an error: an
unknown category is silently inserted into the enabled-category map
with the given value (so it is a known category from then on), other
categories are untouched, and no logging-callback invocation — which
the unreachable catch branch would produce — is recorded.  The try body
is a `std::map` subscript assignment, which does not throw for any key,
so the error-reporting branch is unreachable and the operation is
modelled as total. -/
theorem C9_SetDebugLogging_never_fails (c : FmuComponentBase) (cat : String)
    (value : Bool) :
    assocFind (c.SetDebugLogging cat value).m_logCategories_enabled cat = some value ∧
    (c.SetDebugLogging cat value).loggerCalls = c.loggerCalls ∧
    (c.SetDebugLogging cat value).m_variables = c.m_variables ∧
    (c.SetDebugLogging cat value).m_fmuMachineState = c.m_fmuMachineState ∧
    (∀ cat', cat' ≠ cat →
      assocFind (c.SetDebugLogging cat value).m_logCategories_enabled cat' =
        assocFind c.m_logCategories_enabled cat') := by
  refine ⟨?_, rfl, rfl, rfl, ?_⟩
  · exact assocFind_assocSet_self c.m_logCategories_enabled cat value
  · intro cat' hne
    exact assocFind_assocSet_ne c.m_logCategories_enabled cat cat' value hne

theorem C9_SetDebugLogging_never_fails_witness :
    assocFind (demoComponent.SetDebugLogging "newCategory" true).m_logCategories_enabled
      "newCategory" = some true ∧
    (demoComponent.SetDebugLogging "newCategory" true).loggerCalls =
      demoComponent.loggerCalls ∧
    assocFind (demoComponent.SetDebugLogging "newCategory" true).m_logCategories_enabled
      "logAll" = assocFind demoComponent.m_logCategories_enabled "logAll" :=
  ⟨(C9_SetDebugLogging_never_fails demoComponent "newCategory" true).1,
   (C9_SetDebugLogging_never_fails demoComponent "newCategory" true).2.1,
   (C9_SetDebugLogging_never_fails demoComponent "newCategory" true).2.2.2.2
     "logAll" (by decide)⟩

-- projection helpers over AddFmuVariable results ------------------
def addResultComponent? (r : Except (FmuError × FmuComponentBase)
    (FmuComponentBase × FmuVariableExport)) : Option FmuComponentBase :=
  match r with
  | .ok p => some p.1
  | .error _ => Option.none

def addResultVariable? (r : Except (FmuError × FmuComponentBase)
    (FmuComponentBase × FmuVariableExport)) : Option FmuVariableExport :=
  match r with
  | .ok p => some p.2
  | .error _ => Option.none

def addErrorKind? (r : Except (FmuError × FmuComponentBase)
    (FmuComponentBase × FmuVariableExport)) : Option FmuError :=
  match r with
  | .error e => some e.1
  | .ok _ => Option.none

def addErrorState? (r : Except (FmuError × FmuComponentBase)
    (FmuComponentBase × FmuVariableExport)) : Option FmuComponentBase :=
  match r with
  | .error e => some e.2
  | .ok _ => Option.none

-- C7 ---------------------------------------------------------------
/-- C7: `AddFmuVariable` with a unit name that is neither registered in
the component's unit registry nor equal by name to a common-unit
library entry fails with UnknownUnit (leaving the component exactly as
it was); if the unit name matches a common unit by name (and the
variable name is fresh) that common unit is auto-registered into the
unit registry and the variable registration succeeds. -/
theorem C7_unit_resolution (c : FmuComponentBase) (vb : VarBind) (name : String)
    (t : FmuType) (u d : String) (ca : CausalityType) (va : VariabilityType)
    (init : InitialType)
    (hunreg : assocFind c.m_unitDefinitions u = Option.none) :
    (common_unitdefinitions.find? (fun x => x.name = u) = Option.none →
      c.AddFmuVariable vb name t u d ca va init =
        Except.error (FmuError.UnknownUnit, c)) ∧
    (∀ ud, common_unitdefinitions.find? (fun x => x.name = u) = some ud →
      c.findByName name = Option.none →
      (c.AddFmuVariable vb name t u d ca va init).isOk = true ∧
      (addResultComponent? (c.AddFmuVariable vb name t u d ca va init)).map
        (fun c' => assocFind c'.m_unitDefinitions u) = some (some ud) ∧
      (addResultVariable? (c.AddFmuVariable vb name t u d ca va init)).map
        (fun nv => (nv.m_name, nv.m_unitname)) = some (name, u)) := by
  constructor
  · intro hcu
    unfold FmuComponentBase.AddFmuVariable FmuComponentBase.AddFmuVariable_unitStep
    rw [hunreg, hcu]
  · intro ud hcu hfresh0
    unfold FmuComponentBase.AddFmuVariable FmuComponentBase.AddFmuVariable_unitStep
    rw [hunreg, hcu]
    dsimp only
    unfold FmuComponentBase.AddFmuVariable_createStep
    have hfind : (c.addUnitDefinition ud).findByName name = Option.none := hfresh0
    rw [hfind]
    dsimp only
    have hfresh := findByName_eq_none hfind
    obtain ⟨hnm, hty, hvr⟩ := newvar_fields vb name t u d ca va init
      ((assocFind (c.addUnitDefinition ud).m_valueReferenceCounter t).getD 0 + 1)
    obtain ⟨hflag, hperm⟩ := insertByName_fresh _ (c.addUnitDefinition ud).m_variables
      (fun x hx => by rw [hnm]; exact hfresh x hx)
    rw [hflag]
    refine ⟨rfl, ?_, ?_⟩
    · show some (assocFind (c.addUnitDefinition ud).m_unitDefinitions u) = some (some ud)
      have hudn : ud.name = u := by
        have := List.find?_some hcu
        simpa using this
      show some (assocFind (assocSet c.m_unitDefinitions ud.name ud) u) = some (some ud)
      rw [hudn, assocFind_assocSet_self]
    · show some (_, _) = some (name, u)
      rw [hnm]
      have hun : ((((mkFmuVariableExport vb name t ca va init).SetUnitName u).SetValueReference
          ((assocFind (c.addUnitDefinition ud).m_valueReferenceCounter t).getD 0 + 1)).SetDescription
          d).ExposeCurrentValueAsStart.m_unitname = u := by
        unfold FmuVariableExport.ExposeCurrentValueAsStart FmuVariableExport.SetDescription
          FmuVariableExport.SetValueReference FmuVariableExport.SetUnitName mkFmuVariableExport
        dsimp only
        split <;> split <;> simp
      rw [hun]

theorem C7_unit_resolution_witness :
    demoComponent.AddFmuVariable (VarBind.ptr (FmuVarValue.realVal 0)) "x" FmuType.Real
      "furlong" "" CausalityType.parameter VariabilityType.fixed InitialType.none =
      Except.error (FmuError.UnknownUnit, demoComponent) ∧
    (demoComponent.AddFmuVariable (VarBind.ptr (FmuVarValue.realVal 0)) "v" FmuType.Real
      "m/s" "" CausalityType.output VariabilityType.continuous
      InitialType.exact).isOk = true ∧
    (addResultComponent? (demoComponent.AddFmuVariable (VarBind.ptr (FmuVarValue.realVal 0))
      "v" FmuType.Real "m/s" "" CausalityType.output VariabilityType.continuous
      InitialType.exact)).map (fun c' => assocFind c'.m_unitDefinitions "m/s") =
      some (some { name := "m/s", m := 1, s := -1 }) ∧
    (addResultVariable? (demoComponent.AddFmuVariable (VarBind.ptr (FmuVarValue.realVal 0))
      "v" FmuType.Real "m/s" "" CausalityType.output VariabilityType.continuous
      InitialType.exact)).map (fun nv => (nv.m_name, nv.m_unitname)) = some ("v", "m/s") :=
  ⟨(C7_unit_resolution demoComponent (VarBind.ptr (FmuVarValue.realVal 0)) "x" FmuType.Real
      "furlong" "" CausalityType.parameter VariabilityType.fixed InitialType.none
      (by decide)).1 (by decide),
   ((C7_unit_resolution demoComponent (VarBind.ptr (FmuVarValue.realVal 0)) "v" FmuType.Real
      "m/s" "" CausalityType.output VariabilityType.continuous InitialType.exact
      (by decide)).2 { name := "m/s", m := 1, s := -1 } (by decide) (by decide)).1,
   ((C7_unit_resolution demoComponent (VarBind.ptr (FmuVarValue.realVal 0)) "v" FmuType.Real
      "m/s" "" CausalityType.output VariabilityType.continuous InitialType.exact
      (by decide)).2 { name := "m/s", m := 1, s := -1 } (by decide) (by decide)).2.1,
   ((C7_unit_resolution demoComponent (VarBind.ptr (FmuVarValue.realVal 0)) "v" FmuType.Real
      "m/s" "" CausalityType.output VariabilityType.continuous InitialType.exact
      (by decide)).2 { name := "m/s", m := 1, s := -1 } (by decide) (by decide)).2.2⟩

-- C6 ---------------------------------------------------------------
/-- C6 (amended): `AddFmuVariable` with a name that already names a
registered variable fails with DuplicateName provided the unit resolves
(registered or common); the variable collection, the value-reference
counters, the derivative and dependency registries and the log are all
unaffected by the failed call — but the unit registry is not: a common
unit auto-registered by the unit-resolution step, which precedes the
duplicate-name check, persists (see `C6_counterexample`, which refutes
the claim's full-atomicity wording on exactly this point). -/
theorem C6_duplicate_name_amended (c : FmuComponentBase) (vb : VarBind) (name : String)
    (t : FmuType) (u d : String) (ca : CausalityType) (va : VariabilityType)
    (init : InitialType) (v0 : FmuVariableExport)
    (hdup : c.findByName name = some v0) :
    (∀ u0, assocFind c.m_unitDefinitions u = some u0 →
      c.AddFmuVariable vb name t u d ca va init =
        Except.error (FmuError.DuplicateName, c)) ∧
    (∀ ud, assocFind c.m_unitDefinitions u = Option.none →
      common_unitdefinitions.find? (fun x => x.name = u) = some ud →
      c.AddFmuVariable vb name t u d ca va init =
        Except.error (FmuError.DuplicateName, c.addUnitDefinition ud) ∧
      (c.addUnitDefinition ud).m_variables = c.m_variables ∧
      (c.addUnitDefinition ud).m_valueReferenceCounter = c.m_valueReferenceCounter ∧
      (c.addUnitDefinition ud).m_derivatives = c.m_derivatives ∧
      (c.addUnitDefinition ud).m_variableDependencies = c.m_variableDependencies ∧
      (c.addUnitDefinition ud).loggerCalls = c.loggerCalls ∧
      (c.addUnitDefinition ud).m_unitDefinitions =
        assocSet c.m_unitDefinitions ud.name ud) := by
  constructor
  · intro u0 hu
    unfold FmuComponentBase.AddFmuVariable FmuComponentBase.AddFmuVariable_unitStep
    rw [hu]
    dsimp only
    unfold FmuComponentBase.AddFmuVariable_createStep
    rw [hdup]
  · intro ud hu hcu
    refine ⟨?_, rfl, rfl, rfl, rfl, rfl, rfl⟩
    unfold FmuComponentBase.AddFmuVariable FmuComponentBase.AddFmuVariable_unitStep
    rw [hu, hcu]
    dsimp only
    unfold FmuComponentBase.AddFmuVariable_createStep
    have hfind : (c.addUnitDefinition ud).findByName name = some v0 := hdup
    rw [hfind]

-- the concrete counterexample to the claim as stated: the failed
-- duplicate-name call auto-registers the common unit "m/s" first, so the
-- component state is NOT unaffected
/-- C6 counterexample to the claim as stated: calling `AddFmuVariable`
on a component that already has a variable `"time"`, with the duplicate
name `"time"` and the common unit `"m/s"`, fails with DuplicateName, yet
the component's unit registry after the failed call differs from the one
before it (the call auto-registered `"m/s"`): something the failed call
touched is left changed. -/
theorem C6_counterexample :
    addErrorKind? (demoComponent.AddFmuVariable (VarBind.ptr (FmuVarValue.realVal 0)) "time"
      FmuType.Real "m/s" "" CausalityType.«local» VariabilityType.continuous
      InitialType.none) = some FmuError.DuplicateName ∧
    ¬((addErrorState? (demoComponent.AddFmuVariable (VarBind.ptr (FmuVarValue.realVal 0))
      "time" FmuType.Real "m/s" "" CausalityType.«local» VariabilityType.continuous
      InitialType.none)).map (fun c' => c'.m_unitDefinitions) =
        some demoComponent.m_unitDefinitions) := by decide

def demoTimeVar : FmuVariableExport :=
  (demoComponent.findByName "time").getD
    (mkFmuVariableExport (VarBind.ptr (FmuVarValue.realVal 0)) "time" FmuType.Real
      CausalityType.independent VariabilityType.continuous InitialType.none)

theorem C6_duplicate_name_amended_witness :
    demoComponent.AddFmuVariable (VarBind.ptr (FmuVarValue.realVal 0)) "time" FmuType.Real
      "s" "" CausalityType.«local» VariabilityType.continuous InitialType.none =
      Except.error (FmuError.DuplicateName, demoComponent) ∧
    demoComponent.AddFmuVariable (VarBind.ptr (FmuVarValue.realVal 0)) "time" FmuType.Real
      "m/s" "" CausalityType.«local» VariabilityType.continuous InitialType.none =
      Except.error (FmuError.DuplicateName,
        demoComponent.addUnitDefinition { name := "m/s", m := 1, s := -1 }) :=
  by
  have h1 := (C6_duplicate_name_amended demoComponent (VarBind.ptr (FmuVarValue.realVal 0))
    "time" FmuType.Real "s" "" CausalityType.«local» VariabilityType.continuous
    InitialType.none demoTimeVar (by decide)).1
    { name := "s", s := 1 } (by decide)
  have h2 := ((C6_duplicate_name_amended demoComponent (VarBind.ptr (FmuVarValue.realVal 0))
    "time" FmuType.Real "m/s" "" CausalityType.«local» VariabilityType.continuous
    InitialType.none demoTimeVar (by decide)).2
    { name := "m/s", m := 1, s := -1 } (by decide) (by decide)).1
  exact ⟨h1, h2⟩

-- C1 ---------------------------------------------------------------
def instantiateError? (r : Except (FmuError × FmuComponentBase)
    (Option FmuComponentBase)) : Option FmuError :=
  match r with
  | .error e => some e.1
  | .ok _ => Option.none

/-- A model constructor that fails during component construction: it
registers a variable with the unregistered, non-common unit "furlong"
(standing for any of the setup-time failures DuplicateName, UnknownUnit,
UnknownVariable raised inside fmi2InstantiateIMPL). -/
def badModelInstantiateIMPL : Except (FmuError × FmuComponentBase) FmuComponentBase :=
  match mkFmuComponentBase "instance" FMU_GUID false demoLogCategories
      ["logStatusWarning"] with
  | .error e => .error e
  | .ok c =>
    match c.AddFmuVariable (.ptr (.realVal 0)) "x" .Real "furlong" "cart position"
        .parameter .fixed .none with
    | .error e => .error e
    | .ok r => .ok r.1

/-- C1: the `fmi2Instantiate` entry point performs no wrapping of the
component constructor: whatever exception `fmi2InstantiateIMPL` raises
propagates raw across the ABI boundary (`Except.error`), and is never
converted into the null/failure return (`Except.ok none`) with a
descriptive message that the spec requires; in particular a concrete
model constructor failing with UnknownUnit escapes uncaught.  This
refutes the claim as a statement about the code and confirms the spec
§9 note that the source's instantiate entry point lacks the required
boundary. -/
theorem C1_instantiate_uncaught (impl : Except (FmuError × FmuComponentBase)
    FmuComponentBase) (e : FmuError × FmuComponentBase) (h : impl = Except.error e) :
    (fmi2Instantiate impl = Except.error e ∧
      fmi2Instantiate impl ≠ Except.ok Option.none) ∧
    instantiateError? (fmi2Instantiate badModelInstantiateIMPL) =
      some FmuError.UnknownUnit := by
  subst h
  refine ⟨⟨rfl, by simp [fmi2Instantiate]⟩, by decide⟩

theorem C1_instantiate_uncaught_witness :
    fmi2Instantiate (Except.error (FmuError.DuplicateName, demoComponent)) =
      Except.error (FmuError.DuplicateName, demoComponent) ∧
    instantiateError? (fmi2Instantiate badModelInstantiateIMPL) =
      some FmuError.UnknownUnit :=
  ⟨(C1_instantiate_uncaught (Except.error (FmuError.DuplicateName, demoComponent))
      (FmuError.DuplicateName, demoComponent) rfl).1.1,
   (C1_instantiate_uncaught (Except.error (FmuError.DuplicateName, demoComponent))
      (FmuError.DuplicateName, demoComponent) rfl).2⟩

-- C5 ---------------------------------------------------------------
/-- The class of variables to which the dependency-declaration
validation applies (spec §4.3). -/
def dependencyRequired (v : FmuVariableExport) : Prop :=
  (v.m_causality = CausalityType.output ∧
    (v.m_initial = InitialType.approx ∨ v.m_initial = InitialType.calculated)) ∨
  v.m_causality = CausalityType.calculatedParameter

theorem checkVariableDependencies_ok_iff (c : FmuComponentBase)
    (l : List FmuVariableExport) :
    c.checkVariableDependencies l = Except.ok () ↔
    ∀ v ∈ l, dependencyRequired v →
      (assocFind c.m_variableDependencies v.m_name).isSome := by
  induction l with
  | nil => simp [FmuComponentBase.checkVariableDependencies]
  | cons v rest ih =>
    unfold FmuComponentBase.checkVariableDependencies
    by_cases hnone : (assocFind c.m_variableDependencies v.m_name).isNone
    · by_cases hout : v.m_causality = CausalityType.output ∧
          (v.m_initial = InitialType.approx ∨ v.m_initial = InitialType.calculated)
      · rw [if_pos ⟨hnone, hout⟩]
        constructor
        · intro h
          cases h
        · intro h
          exfalso
          have := h v (List.mem_cons_self v rest) (Or.inl hout)
          rw [Option.isNone_iff_eq_none] at hnone
          rw [hnone] at this
          cases this
      · by_cases hcp : v.m_causality = CausalityType.calculatedParameter
        · rw [if_neg (by intro hc; exact hout hc.2), if_pos ⟨hnone, hcp⟩]
          constructor
          · intro h
            cases h
          · intro h
            exfalso
            have := h v (List.mem_cons_self v rest) (Or.inr hcp)
            rw [Option.isNone_iff_eq_none] at hnone
            rw [hnone] at this
            cases this
        · rw [if_neg (by intro hc; exact hout hc.2),
            if_neg (by intro hc; exact hcp hc.2)]
          rw [ih]
          constructor
          · intro h w hw hreq
            rcases List.mem_cons.mp hw with rfl | hw'
            · exact absurd hreq (by
                intro hreq'
                rcases hreq' with h1 | h2
                · exact hout h1
                · exact hcp h2)
            · exact h w hw' hreq
          · intro h w hw hreq
            exact h w (List.mem_cons_of_mem v hw) hreq
    · have hsome : (assocFind c.m_variableDependencies v.m_name).isSome := by
        cases hx : assocFind c.m_variableDependencies v.m_name
        · rw [Option.isNone_iff_eq_none.mpr hx] at hnone
          exact absurd rfl hnone
        · rfl
      rw [if_neg (by intro hc; rw [hc.1] at hnone; exact hnone rfl),
        if_neg (by intro hc; rw [hc.1] at hnone; exact hnone rfl)]
      rw [ih]
      constructor
      · intro h w hw hreq
        rcases List.mem_cons.mp hw with rfl | hw'
        · exact hsome
        · exact h w hw' hreq
      · intro h w hw hreq
        exact h w (List.mem_cons_of_mem v hw) hreq

theorem checkVariableDependencies_cases (c : FmuComponentBase)
    (l : List FmuVariableExport) :
    c.checkVariableDependencies l = Except.ok () ∨
    ∃ name, c.checkVariableDependencies l =
      Except.error (FmuError.MissingDependencyDeclaration name) := by
  induction l with
  | nil => exact Or.inl rfl
  | cons v rest ih =>
    unfold FmuComponentBase.checkVariableDependencies
    split
    · exact Or.inr ⟨v.m_name, rfl⟩
    · split
      · exact Or.inr ⟨v.m_name, rfl⟩
      · exact ih

/-- C5 (amended): at model-description generation time, every variable
whose causality is output with initial approx or calculated, and every
variable whose causality is calculatedParameter, must have a declared
dependency record — the record may be empty, presence is what the code
checks (see `C5_counterexample`) — and any violation fails with
MissingDependencyDeclaration carrying the violating variable's name and
aborts generation before the file write, so no partial
modelDescription.xml is produced (an `Except.error` result carries no
document); when every such variable has a record, generation succeeds. -/
theorem C5_missing_dependency_aborts (c0 : FmuComponentBase)
    (pre post : FmuComponentBase → FmuComponentBase) :
    ((∃ v ∈ (pre c0).m_variables, dependencyRequired v ∧
        assocFind (pre c0).m_variableDependencies v.m_name = Option.none) →
      ∃ name, c0.ExportModelDescription pre post =
        Except.error (FmuError.MissingDependencyDeclaration name, pre c0)) ∧
    ((∀ v ∈ (pre c0).m_variables, dependencyRequired v →
        (assocFind (pre c0).m_variableDependencies v.m_name).isSome) →
      (c0.ExportModelDescription pre post).isOk = true) := by
  constructor
  · intro h
    have hnotok : ¬ ((pre c0).checkVariableDependencies (pre c0).m_variables =
        Except.ok ()) := by
      rw [checkVariableDependencies_ok_iff]
      intro hall
      obtain ⟨v, hv, hreq, hnone⟩ := h
      have := hall v hv hreq
      rw [hnone] at this
      cases this
    rcases checkVariableDependencies_cases (pre c0) (pre c0).m_variables with hok | ⟨nm, herr⟩
    · exact absurd hok hnotok
    · refine ⟨nm, ?_⟩
      unfold FmuComponentBase.ExportModelDescription
      dsimp only
      rw [herr]
  · intro h
    have hok : (pre c0).checkVariableDependencies (pre c0).m_variables = Except.ok () :=
      (checkVariableDependencies_ok_iff (pre c0) (pre c0).m_variables).mpr h
    unfold FmuComponentBase.ExportModelDescription
    dsimp only
    rw [hok]
    rfl

instance (v : FmuVariableExport) : Decidable (dependencyRequired v) := by
  unfold dependencyRequired
  infer_instance

/-- A component holding an output/calculated variable "y" whose declared
dependency list is empty. -/
def c5_emptyDepsComponent : FmuComponentBase :=
  match demoComponent.AddFmuVariable (VarBind.ptr (FmuVarValue.realVal 0)) "y" FmuType.Real
      "1" "" CausalityType.output VariabilityType.continuous InitialType.calculated with
  | .error e => e.2
  | .ok r =>
    match r.1.addDependencies "y" [] with
    | .error e => e.2
    | .ok c => c

/-- C5 counterexample to the claim's "non-empty" wording: a component
with an output/calculated variable `"y"` whose declared dependency list
is empty (`DeclareVariableDependencies("y", {})`) passes the validation
and `ExportModelDescription` succeeds, because the code only checks
presence of a record in `m_variableDependencies`, not non-emptiness. -/
theorem C5_counterexample :
    assocFind c5_emptyDepsComponent.m_variableDependencies "y" = some [] ∧
    (c5_emptyDepsComponent.findByName "y").map
      (fun v => (v.m_causality, v.m_initial)) =
      some (CausalityType.output, InitialType.calculated) ∧
    (c5_emptyDepsComponent.ExportModelDescription id id).isOk = true :=
  ⟨rfl, rfl, rfl⟩

/-- A component holding an output/calculated variable "z" with no
dependency record at all. -/
def c5_noDepsComponent : FmuComponentBase :=
  match demoComponent.AddFmuVariable (VarBind.ptr (FmuVarValue.realVal 0)) "z" FmuType.Real
      "1" "" CausalityType.output VariabilityType.continuous InitialType.calculated with
  | .error e => e.2
  | .ok r => r.1

def c5_zVar : FmuVariableExport :=
  (c5_noDepsComponent.findByName "z").getD
    (mkFmuVariableExport (VarBind.ptr (FmuVarValue.realVal 0)) "z" FmuType.Real
      CausalityType.output VariabilityType.continuous InitialType.calculated)

theorem C5_missing_dependency_aborts_witness :
    (∃ name, c5_noDepsComponent.ExportModelDescription id id =
      Except.error (FmuError.MissingDependencyDeclaration name, c5_noDepsComponent)) ∧
    (c5_emptyDepsComponent.ExportModelDescription id id).isOk = true :=
  ⟨(C5_missing_dependency_aborts c5_noDepsComponent id id).1
      ⟨c5_zVar,
        (findByName_eq_some (show c5_noDepsComponent.findByName "z" = some c5_zVar
          from rfl)).1,
        Or.inl ⟨rfl, Or.inr rfl⟩,
        rfl⟩,
   (C5_missing_dependency_aborts c5_emptyDepsComponent id id).2
     ((checkVariableDependencies_ok_iff c5_emptyDepsComponent
        c5_emptyDepsComponent.m_variables).mp rfl)⟩

-- C3 ---------------------------------------------------------------
def c3_sharedComponent : FmuComponentBase :=
  applyOp demoComponent (RegistryOp.add (VarBind.ptr (FmuVarValue.intVal 0)) "n"
    FmuType.Integer "1" "" CausalityType.parameter VariabilityType.fixed InitialType.none)

/-- C3: for every component satisfying the value-reference invariant
and every sequence of `AddFmuVariable` and `RebindVariable` calls, the
invariant is preserved: value references are unique among variables
sharing the same scalar type, lie in `1..count` of that type (so they
are assigned in registration order as a strictly increasing sequence
starting at 1 per scalar type — each successful add receives
`typeCount + 1`, strictly greater than every existing reference of that
type); rebinding preserves the rebound variable's value reference; and
in a concrete component a Real and an Integer variable both carry the
numeric value reference 1. -/
theorem C3_value_reference_allocation :
    (∀ c0, ValueRefInv c0 → ∀ ops, ValueRefInv (applyOps c0 ops)) ∧
    (∀ c vb name t u d ca va init c' newvar, ValueRefInv c →
      c.AddFmuVariable vb name t u d ca va init = Except.ok (c', newvar) →
      newvar.m_type = t ∧
      newvar.m_valueReference = typeCount c t + 1 ∧
      (∀ v ∈ c.m_variables, v.m_type = t →
        v.m_valueReference < newvar.m_valueReference)) ∧
    (∀ c vb name v, ValueRefInv c → c.findByName name = some v →
      (v.Bind vb) ∈ (c.RebindVariable vb name).1.m_variables ∧
      (v.Bind vb).m_valueReference = v.m_valueReference) ∧
    ((c3_sharedComponent.findByName "time").map
        (fun v => (v.m_type, v.m_valueReference)) = some (FmuType.Real, 1) ∧
      (c3_sharedComponent.findByName "n").map
        (fun v => (v.m_type, v.m_valueReference)) = some (FmuType.Integer, 1) ∧
      ValueRefInv c3_sharedComponent) := by
  refine ⟨?_, ?_, ?_, ?_, ?_, ?_⟩
  · intro c0 hinv ops
    exact applyOps_inv c0 ops hinv
  · intro c vb name t u d ca va init c' newvar hinv hok
    obtain ⟨_, hty, _, hvr, hlt, _⟩ := AddFmuVariable_ok_spec c vb name t u d ca va init hinv hok
    exact ⟨hty, hvr, hlt⟩
  · intro c vb name v hinv hfind
    exact ⟨(RebindVariable_spec c vb name hinv).2 v hfind, rfl⟩
  · rfl
  · rfl
  · decide

theorem C3_value_reference_allocation_witness :
    ValueRefInv (applyOps demoComponent
      [RegistryOp.add (VarBind.ptr (FmuVarValue.realVal 0)) "x" FmuType.Real "m" ""
        CausalityType.output VariabilityType.continuous InitialType.exact,
       RegistryOp.rebind (VarBind.ptr (FmuVarValue.realVal 1)) "x"]) ∧
    ValueRefInv c3_sharedComponent :=
  ⟨(C3_value_reference_allocation).1 demoComponent (by decide)
      [RegistryOp.add (VarBind.ptr (FmuVarValue.realVal 0)) "x" FmuType.Real "m" ""
        CausalityType.output VariabilityType.continuous InitialType.exact,
       RegistryOp.rebind (VarBind.ptr (FmuVarValue.realVal 1)) "x"],
   (C3_value_reference_allocation).2.2.2.2.2⟩

end FmuForge
